import Mathlib

/-!
Shallow embedding of the rdbcli terminal database client, checked against its
natural-language specification.  Each definition mirrors one Rust item of the
repository (crate `rusty_db_cli` and its helper crates); the theorems at the end
settle the specification claims.

Machine integers are modelled as `Nat`/`Int`, with explicit wrapping (`% 2 ^ w`)
exactly where the Rust code can overflow.  IEEE doubles never have their numeric
value inspected by any claim, so an `f64` is carried as the literal text it was
parsed from (see `Number`).
-/

namespace RdbCli

instance {ε α : Type} [DecidableEq ε] [DecidableEq α] : DecidableEq (Except ε α) :=
  fun a b =>
    match a, b with
    | .ok x, .ok y =>
      if h : x = y then .isTrue (by rw [h]) else .isFalse (by intro hh; cases hh; exact h rfl)
    | .error x, .error y =>
      if h : x = y then .isTrue (by rw [h]) else .isFalse (by intro hh; cases hh; exact h rfl)
    | .ok _, .error _ => .isFalse (fun h => Except.noConfusion h)
    | .error _, .ok _ => .isFalse (fun h => Except.noConfusion h)

/-! ## Rust standard-library helpers

`str::parse::<iN>` accepts an optional single sign followed by at least one
ASCII digit and fails on overflow.  Overflow during Rust's digit-by-digit
accumulation happens exactly when the final value is out of range, so a final
range check is equivalent. -/

/-- Value of a non-empty all-ASCII-digit string, `none` otherwise. -/
def parseDigits (cs : List Char) : Option Nat :=
  match cs with
  | [] => none
  | _ =>
    if cs.all Char.isDigit then
      some (cs.foldl (fun a c => a * 10 + (c.toNat - 48)) 0)
    else none

/-- Sign-and-digits core shared by `str::parse::<i32>` and `str::parse::<i64>`:
the mathematical value of the literal, before any range check. -/
def rustParseIntCore (s : String) : Option Int :=
  match s.toList with
  | '+' :: rest => (parseDigits rest).map (fun n => (n : Int))
  | '-' :: rest => (parseDigits rest).map (fun n => -(n : Int))
  | rest => (parseDigits rest).map (fun n => (n : Int))

/-- `str::parse` for a signed integer type with the given inclusive range. -/
def rustParseInt (lo hi : Int) (s : String) : Option Int :=
  (rustParseIntCore s).bind (fun v => if lo ≤ v ∧ v ≤ hi then some v else none)

def i32Min : Int := -2147483648
def i32Max : Int := 2147483647
def i64Min : Int := -9223372036854775808
def i64Max : Int := 9223372036854775807

def rustParseI32 (s : String) : Option Int := rustParseInt i32Min i32Max s

def rustParseI64 (s : String) : Option Int := rustParseInt i64Min i64Max s

/-- Syntax accepted by Rust's `str::parse::<f64>`: optional sign, then
`inf`/`infinity`/`nan` (case-insensitive) or a decimal mantissa with an
optional exponent.  When the syntax is accepted the parse always returns `Ok`
(overflow rounds to infinity), so acceptance is all the embedding needs. -/
def f64ExpOk (cs : List Char) : Bool :=
  match cs with
  | [] => true
  | c :: rest =>
    if c = 'e' ∨ c = 'E' then
      let rest2 := match rest with
        | d :: tl => if d = '+' ∨ d = '-' then tl else rest
        | [] => rest
      decide (rest2 ≠ []) && rest2.all Char.isDigit
    else false

def f64BodyOk (cs : List Char) : Bool :=
  let lower := cs.map Char.toLower
  if lower = "inf".toList ∨ lower = "infinity".toList ∨ lower = "nan".toList then
    true
  else
    let intPart := cs.takeWhile Char.isDigit
    let r1 := cs.dropWhile Char.isDigit
    match r1 with
    | '.' :: r2 =>
      let frac := r2.takeWhile Char.isDigit
      let r3 := r2.dropWhile Char.isDigit
      (decide (intPart ≠ []) || decide (frac ≠ [])) && f64ExpOk r3
    | r => decide (intPart ≠ []) && f64ExpOk r

def f64SyntaxOk (s : String) : Bool :=
  match s.toList with
  | c :: rest => if c = '+' ∨ c = '-' then f64BodyOk rest else f64BodyOk s.toList
  | [] => false

/-! ## `rusty_db_cli_mongo/src/types/literals.rs` -/

/-- `enum Number { F64(f64), I64(i64), I32(i32) }`.  The `f64` payload is
represented by the literal text it was parsed from: no claim inspects the
floating-point value itself, only which constructor was chosen. -/
inductive Number where
  | f64 (text : String)
  | i64 (n : Int)
  | i32 (n : Int)
deriving DecidableEq, Repr

/-- `enum NumberParseError { FloatError(..), IntError(..) }` (payload dropped:
the claims never inspect the inner std error). -/
inductive NumberParseError where
  | floatError
  | intError
deriving DecidableEq, Repr

/-- `impl FromStr for Number` (literals.rs, lines 116-143).  Note the source
re-parses a successful `i32` result as `i64` when it equals `i32::MAX` or
`i32::MIN`. -/
def Number.fromStr (s : String) : Except NumberParseError Number :=
  if s.toList.contains '.' then
    if f64SyntaxOk s then .ok (.f64 s) else .error .floatError
  else
    match rustParseI32 s with
    | some v =>
      if v = i32Max ∨ v = i32Min then
        match rustParseI64 s with
        | some w => .ok (.i64 w)
        | none => .error .intError
      else .ok (.i32 v)
    | none =>
      match rustParseI64 s with
      | some w => .ok (.i64 w)
      | none => .error .intError

/-! ## `rusty_db_cli_mongo/src/lexer.rs`

The imperative lexer is rendered as a structurally recursive scanner over the
source's character list.  `peek` always looks at the head of the remaining
list, which matches the source exactly (its byte cursor always sits on a
character boundary).  `peek_next`, however, guards the lookup with the *byte*
length of the source while indexing by *characters*; on ASCII sources the two
coincide and the embedding below is exact, while on non-ASCII sources the Rust
code can panic near end of input.  The character-class tests `is_alphabetic`
and `is_numeric` are Unicode-aware in Rust and are modelled by their ASCII
restrictions.  The lexer theorems therefore quantify over ASCII sources. -/

inductive TokenType where
  | semicolon
  | leftParen
  | rightParen
  | leftBrace
  | rightBrace
  | leftBracket
  | rightBracket
  | comma
  | dot
  | colon
  | identifier
  | string
  | number
  | bool
  | regex
  | regexFlags
  | null
  | eof
  | unknown
deriving DecidableEq, Repr

/-- `enum Literal` from literals.rs. -/
inductive Literal where
  | str (s : String)
  | num (n : Number)
  | bool (b : Bool)
  | null
deriving DecidableEq, Repr

/-- `struct Token`.  `range` stores character positions: `start` is the
position of the first lexeme character, `end` is `current - 1`. -/
structure Token where
  type : TokenType
  lexeme : List Char
  literal : Option Literal
  line : Nat
  rangeStart : Nat
  rangeEnd : Nat
deriving DecidableEq, Repr

/-- `struct UnexpectedTokenError`. -/
structure UnexpectedTokenError where
  expected : TokenType
  found : TokenType
deriving DecidableEq, Repr

/-- `struct LexerError`.  `position` is `tokens.len() - 1` at the time the
error is recorded; the source's `usize` subtraction underflows when no token
precedes (a debug-build panic, wraparound in release); here it is `Nat`
truncated subtraction.  No claim inspects error positions. -/
structure LexerError where
  message : String
  position : Nat
  line : Nat
  tokenError : UnexpectedTokenError
deriving DecidableEq, Repr

/-- Rust `char::is_numeric`, restricted to ASCII (see the section comment). -/
def rustIsNumeric (c : Char) : Bool := c.isDigit

/-- Rust `char::is_alphabetic`, restricted to ASCII (see the section
comment). -/
def rustIsAlphabetic (c : Char) : Bool := c.isAlpha

/-- `Lexer::is_identifier`: `is_ascii_alphabetic || '$' || '_'` (exact). -/
def isIdentCont (c : Char) : Bool := c.isAlpha || c = '$' || c = '_'

/-- The loop shared by `Lexer::string` and `Lexer::regex`: consume characters
of the remaining input (which starts just after the opening delimiter `q`)
until an unescaped `q` is consumed, handling `is_espaced_char_or_espace`
(a backslash followed by `q` or by another backslash consumes two characters).
Returns (consumed characters, rest, whether the closing delimiter was found).
-/
def scanDelimited (q : Char) : List Char → List Char × List Char × Bool
  | [] => ([], [], false)
  | c :: rest =>
    if c = q then ([c], rest, true)
    else if c = '\\' ∧ (rest.head? = some q ∨ rest.head? = some '\\') then
      match rest with
      | r :: rest2 =>
        let x := scanDelimited q rest2
        (c :: r :: x.1, x.2.1, x.2.2)
      | [] => ([c], [], false)
    else
      let x := scanDelimited q rest
      (c :: x.1, x.2.1, x.2.2)

theorem scanDelimited_append (q : Char) (l : List Char) :
    (scanDelimited q l).1 ++ (scanDelimited q l).2.1 = l := by
  induction l using scanDelimited.induct q with
  | case1 => simp [scanDelimited]
  | case2 rest =>
    rw [scanDelimited.eq_def]
    simp
  | case3 c h r rest2 h2 ih =>
    rw [scanDelimited.eq_def]
    simp only [if_neg h, if_pos h2]
    simpa using ih
  | case4 c h1 h2 => simp at h2
  | case5 c rest h1 h2 ih =>
    rw [scanDelimited.eq_def]
    simp only [if_neg h1, if_neg h2]
    cases rest with
    | nil => simpa using ih
    | cons a t => simpa using ih

theorem scanDelimited_rest_le (q : Char) (l : List Char) :
    (scanDelimited q l).2.1.length ≤ l.length := by
  have h := scanDelimited_append q l
  calc (scanDelimited q l).2.1.length
      ≤ (scanDelimited q l).1.length + (scanDelimited q l).2.1.length := Nat.le_add_left _ _
    _ = l.length := by rw [← List.length_append, h]

/-- `Lexer::regex_flags` recognizes `{i, m, x, s, u}`. -/
def isRegexFlag (c : Char) : Bool :=
  c = 'i' || c = 'm' || c = 'x' || c = 's' || c = 'u'

/-- `Lexer::digit`: a run of `is_numeric` characters, then — when the next
character is `.` and the one after it is numeric — the `.` and a further
numeric run. -/
def digitBody (l : List Char) : List Char × List Char :=
  let d1 := l.takeWhile rustIsNumeric
  let r1 := l.dropWhile rustIsNumeric
  if r1.head? = some '.' ∧ (r1.tail.head?.map rustIsNumeric).getD false then
    (d1 ++ '.' :: r1.tail.takeWhile rustIsNumeric, r1.tail.dropWhile rustIsNumeric)
  else (d1, r1)

theorem digitBody_append (l : List Char) :
    (digitBody l).1 ++ (digitBody l).2 = l := by
  unfold digitBody
  by_cases h : (l.dropWhile rustIsNumeric).head? = some '.' ∧
      (((l.dropWhile rustIsNumeric).tail.head?.map rustIsNumeric).getD false : Bool) = true
  · rw [if_pos h]
    obtain ⟨h1, _⟩ := h
    have hd : l.dropWhile rustIsNumeric = '.' :: (l.dropWhile rustIsNumeric).tail := by
      cases hr : l.dropWhile rustIsNumeric with
      | nil => rw [hr] at h1; simp at h1
      | cons a t =>
        rw [hr] at h1
        simp only [List.head?_cons, Option.some.injEq] at h1
        simp [h1]
    rw [List.append_assoc, List.cons_append, List.takeWhile_append_dropWhile, ← hd]
    exact List.takeWhile_append_dropWhile rustIsNumeric l
  · rw [if_neg h]
    exact List.takeWhile_append_dropWhile rustIsNumeric l

theorem digitBody_rest_le (l : List Char) :
    (digitBody l).2.length ≤ l.length := by
  have h := digitBody_append l
  calc (digitBody l).2.length
      ≤ (digitBody l).1.length + (digitBody l).2.length := Nat.le_add_left _ _
    _ = l.length := by rw [← List.length_append, h]

theorem dropWhile_length_le {α : Type} (p : α → Bool) (l : List α) :
    (l.dropWhile p).length ≤ l.length := by
  induction l with
  | nil => simp
  | cons a t ih =>
    by_cases h : p a
    · rw [List.dropWhile_cons_of_pos h]
      exact Nat.le_succ_of_le ih
    · rw [List.dropWhile_cons_of_neg h]

def leftBraceChar : Char := Char.ofNat 123

def rightBraceChar : Char := Char.ofNat 125

def singleQuoteChar : Char := Char.ofNat 39

/-- Value of one hexadecimal digit. -/
def hexVal (c : Char) : Option Nat :=
  if '0' ≤ c ∧ c ≤ '9' then some (c.toNat - 48)
  else if 'a' ≤ c ∧ c ≤ 'f' then some (c.toNat - 87)
  else if 'A' ≤ c ∧ c ≤ 'F' then some (c.toNat - 55)
  else none

def hex4 (a b c d : Char) : Option Nat := do
  let x ← hexVal a
  let y ← hexVal b
  let z ← hexVal c
  let w ← hexVal d
  pure (((x * 16 + y) * 16 + z) * 16 + w)

/-- JSON string-content decoding as performed by `serde_json::from_str` on the
re-quoted lexeme in `Lexer::add_token`: standard escapes, `\u` with surrogate
pairs, failure on invalid escapes, lone surrogates, unescaped control
characters, and an unescaped `"` (which would end the JSON string early and
leave trailing characters). -/
def jsonUnescape : List Char → Option (List Char)
  | [] => some []
  | '\\' :: rest =>
    match rest with
    | '"' :: t => (jsonUnescape t).map ('"' :: ·)
    | '\\' :: t => (jsonUnescape t).map ('\\' :: ·)
    | '/' :: t => (jsonUnescape t).map ('/' :: ·)
    | 'b' :: t => (jsonUnescape t).map (Char.ofNat 8 :: ·)
    | 'f' :: t => (jsonUnescape t).map (Char.ofNat 12 :: ·)
    | 'n' :: t => (jsonUnescape t).map ('\n' :: ·)
    | 'r' :: t => (jsonUnescape t).map (Char.ofNat 13 :: ·)
    | 't' :: t => (jsonUnescape t).map ('\t' :: ·)
    | 'u' :: a :: b :: c :: d :: t =>
      match hex4 a b c d with
      | none => none
      | some n =>
        if 55296 ≤ n ∧ n < 56320 then
          match t with
          | '\\' :: 'u' :: a2 :: b2 :: c2 :: d2 :: t2 =>
            (match hex4 a2 b2 c2 d2 with
            | some m =>
              if 56320 ≤ m ∧ m < 57344 then
                (jsonUnescape t2).map
                  (Char.ofNat (65536 + (n - 55296) * 1024 + (m - 56320)) :: ·)
              else none
            | none => none)
          | _ => none
        else if 56320 ≤ n ∧ n < 57344 then none
        else (jsonUnescape t).map (Char.ofNat n :: ·)
    | _ => none
  | c :: rest =>
    if c.toNat < 32 ∨ c = '"' then none
    else (jsonUnescape rest).map (c :: ·)

/-- `Lexer::add_token` (lexer.rs, lines 204-260): compute the literal from the
requested token type, possibly downgrading a `String` token whose content is
not valid JSON to `Unknown`.  The `.unwrap()` on `Number::from_str` is the
`.error ()` case (a Rust panic). -/
def mkToken (t : TokenType) (lexeme : List Char) (line start cur : Nat) :
    Except Unit Token :=
  let res : Except Unit (TokenType × Option Literal) :=
    match t with
    | .string =>
      match jsonUnescape ((lexeme.drop 1).dropLast) with
      | some value => .ok (.string, some (.str ⟨value⟩))
      | none => .ok (.unknown, none)
    | .bool =>
      .ok (.bool,
        if lexeme = "true".toList then some (.bool true)
        else if lexeme = "false".toList then some (.bool false)
        else none)
    | .identifier =>
      .ok (.identifier,
        if lexeme = "true".toList then some (.bool true)
        else if lexeme = "false".toList then some (.bool false)
        else if lexeme = "null".toList then some .null
        else some (.str ⟨lexeme⟩))
    | .null => .ok (.null, some .null)
    | .number =>
      match Number.fromStr ⟨lexeme⟩ with
      | .ok n => .ok (.number, some (.num n))
      | .error _ => .error ()
    | .regex => .ok (.regex, some (.str ⟨(lexeme.drop 1).dropLast⟩))
    | .regexFlags => .ok (.regexFlags, some (.str ⟨lexeme⟩))
    | other => .ok (other, none)
  res.map (fun p =>
    { type := p.1, lexeme := lexeme, literal := p.2, line := line,
      rangeStart := start, rangeEnd := cur - 1 })

/-- One step of the scan, as observed: either an emitted token or a skipped
whitespace character with its position. -/
inductive TraceItem where
  | tok (t : Token)
  | ws (pos : Nat) (c : Char)
deriving DecidableEq, Repr

def TraceItem.render : TraceItem → List Char
  | .tok t => t.lexeme
  | .ws _ c => [c]

/-- Mapping from a punctuation character to its token type (the ten
single-character arms of `Lexer::scan_token`). -/
def punctType (c : Char) : TokenType :=
  if c = ';' then .semicolon
  else if c = '(' then .leftParen
  else if c = ')' then .rightParen
  else if c = leftBraceChar then .leftBrace
  else if c = rightBraceChar then .rightBrace
  else if c = '[' then .leftBracket
  else if c = ']' then .rightBracket
  else if c = '.' then .dot
  else if c = ',' then .comma
  else .colon

/-- The `scan_tokens` loop (lexer.rs, lines 110-122) with `scan_token`
(lines 124-193) inlined.  Arguments: fuel, remaining characters, current
character position, current line, and the number of tokens emitted so far
(needed only for the `position` field of recorded errors).  Every step
consumes at least one character, so the fuel `source.length + 1` passed by
`scanAll` is never exhausted; exhaustion shares the `.error ()` outcome of a
Rust panic.  The result is the sequence of scan steps plus the collected
errors. -/
def scanGo : Nat → List Char → Nat → Nat → Nat →
    Except Unit (List TraceItem × List LexerError)
  | 0, _, _, _, _ => .error ()
  | _ + 1, [], _, _, _ => .ok ([], [])
  | fuel + 1, c :: l, pos, line, ntok =>
    if c = ' ' ∨ c = '\r' ∨ c = '\t' then
      (scanGo fuel l (pos + 1) line ntok).map (fun r => (.ws pos c :: r.1, r.2))
    else if c = '\n' then
      (scanGo fuel l (pos + 1) (line + 1) ntok).map (fun r => (.ws pos c :: r.1, r.2))
    else if c = ';' ∨ c = '(' ∨ c = ')' ∨ c = leftBraceChar ∨ c = rightBraceChar ∨
        c = '[' ∨ c = ']' ∨ c = '.' ∨ c = ',' ∨ c = ':' then
      match mkToken (punctType c) [c] line pos (pos + 1) with
      | .error e => .error e
      | .ok t =>
        (scanGo fuel l (pos + 1) line (ntok + 1)).map (fun r => (.tok t :: r.1, r.2))
    else if c = '"' ∨ c = singleQuoteChar then
      let sd := scanDelimited c l
      let lex := c :: sd.1
      match mkToken (if sd.2.2 then .string else .unknown) lex line pos (pos + lex.length) with
      | .error e => .error e
      | .ok t =>
        (scanGo fuel sd.2.1 (pos + lex.length) line (ntok + 1)).map
          (fun r => (.tok t :: r.1,
            (if sd.2.2 then [] else
              [{ message := "Unterminated string", position := ntok - 1, line := line,
                 tokenError := { expected := .string, found := .eof } }]) ++ r.2))
    else if c = '/' then
      let sd := scanDelimited '/' l
      let lex1 := c :: sd.1
      match mkToken (if sd.2.2 then .regex else .unknown) lex1 line pos (pos + lex1.length) with
      | .error e => .error e
      | .ok t1 =>
        let flags := sd.2.1.takeWhile isRegexFlag
        let rest2 := sd.2.1.dropWhile isRegexFlag
        let lex2 := lex1 ++ flags
        let start2 := if sd.2.2 then pos + lex1.length else pos
        match mkToken .regexFlags lex2 line start2 (pos + lex2.length) with
        | .error e => .error e
        | .ok t2 =>
          (scanGo fuel rest2 (pos + lex2.length) line (ntok + 2)).map
            (fun r => (.tok t1 :: .tok t2 :: r.1,
              (if sd.2.2 then [] else
                [{ message := "Unterminated regex", position := ntok - 1, line := line,
                   tokenError := { expected := .regex, found := .eof } }]) ++ r.2))
    else if c.isDigit ∨ (c = '-' ∧ ((l.head?.map rustIsNumeric).getD false) = true) then
      let db := digitBody l
      let lex := c :: db.1
      match mkToken .number lex line pos (pos + lex.length) with
      | .error e => .error e
      | .ok t =>
        (scanGo fuel db.2 (pos + lex.length) line (ntok + 1)).map
          (fun r => (.tok t :: r.1, r.2))
    else if rustIsAlphabetic c ∨ c = '$' ∨ c = '_' then
      let ident := l.takeWhile isIdentCont
      let rest := l.dropWhile isIdentCont
      let lex := c :: ident
      match mkToken .identifier lex line pos (pos + lex.length) with
      | .error e => .error e
      | .ok t =>
        (scanGo fuel rest (pos + lex.length) line (ntok + 1)).map
          (fun r => (.tok t :: r.1, r.2))
    else
      match mkToken .unknown [c] line pos (pos + 1) with
      | .error e => .error e
      | .ok t =>
        (scanGo fuel l (pos + 1) line (ntok + 1)).map
          (fun r => (.tok t :: r.1,
            { message := "Unknown character", position := ntok, line := line,
              tokenError := { expected := .unknown, found := .unknown } } :: r.2))

/-- The tokens of a trace, in emission order. -/
def traceTokens (tr : List TraceItem) : List Token :=
  tr.filterMap (fun i => match i with
    | .tok t => some t
    | .ws _ _ => none)

/-- `Lexer::scan_tokens` run from the start of a source: the scan trace plus
collected errors (`.error ()` is a Rust panic). -/
def scanAll (source : List Char) : Except Unit (List TraceItem × List LexerError) :=
  scanGo (source.length + 1) source 0 0 0

/-- `Lexer::scan_tokens`'s public result: `Ok(tokens)` when no error was
collected, otherwise `Err((tokens, errors))`; the outer `Except Unit` is a
Rust panic. -/
def scanTokens (source : List Char) :
    Except Unit (Except (List Token × List LexerError) (List Token)) :=
  (scanAll source).map (fun r =>
    if r.2.isEmpty then .ok (traceTokens r.1) else .error (traceTokens r.1, r.2))

theorem exceptMap_ok {ε α β : Type} (f : α → β) (x : Except ε α) (b : β)
    (h : Except.map f x = Except.ok b) : ∃ a, x = Except.ok a ∧ f a = b := by
  cases x with
  | error e => simp [Except.map] at h
  | ok a =>
    refine ⟨a, rfl, ?_⟩
    simpa [Except.map] using h

theorem mkToken_lexeme {t : TokenType} {lex : List Char} {line start cur : Nat}
    {tok : Token} (h : mkToken t lex line start cur = .ok tok) : tok.lexeme = lex := by
  unfold mkToken at h
  obtain ⟨p, _, hf⟩ := exceptMap_ok _ _ _ h
  rw [← hf]

theorem notMem_tail {c v : Char} {l : List Char} (h : v ∉ c :: l) : v ∉ l :=
  fun hm => h (List.mem_cons_of_mem _ hm)

/-- Core reconstruction invariant of the scanner: on any source without `/`,
a panic-free scan yields a trace whose rendered pieces — token lexemes and
skipped whitespace characters, in scan order — concatenate back to the source.
Sources containing `/` are excluded because the regex-flags token's lexeme
duplicates the characters of the regex token (`current_string` is not reset
between the two `add_token` calls of the `/` branch). -/
theorem scanGo_reconstruct (fuel : Nat) (l : List Char) (pos line ntok : Nat) :
    ∀ tr er, '/' ∉ l → scanGo fuel l pos line ntok = .ok (tr, er) →
      (tr.map TraceItem.render).flatten = l := by
  induction fuel, l, pos, line, ntok using scanGo.induct with
  | case1 l pos line ntok =>
    intro tr er _ h
    simp only [scanGo] at h
    exact Except.noConfusion h
  | case2 fuel pos line ntok =>
    intro tr er _ h
    simp only [scanGo, Except.ok.injEq, Prod.mk.injEq] at h
    obtain ⟨h1, _⟩ := h
    subst h1
    simp
  | case3 fuel c l pos line ntok hcond ih =>
    intro tr er hns h
    rw [scanGo.eq_def] at h
    simp only [if_pos hcond] at h
    obtain ⟨⟨tr2, er2⟩, hx, hf⟩ := exceptMap_ok _ _ _ h
    simp only [Prod.mk.injEq] at hf
    obtain ⟨h1, _⟩ := hf
    subst h1
    simp only [List.map_cons, TraceItem.render, List.flatten_cons, List.singleton_append]
    rw [ih tr2 er2 (notMem_tail hns) hx]
  | case4 fuel l pos line ntok hne ih =>
    intro tr er hns h
    rw [scanGo.eq_def] at h
    have hnl : ('\n' : Char) = '\n' := rfl
    simp only [if_neg hne, if_pos hnl] at h
    obtain ⟨⟨tr2, er2⟩, hx, hf⟩ := exceptMap_ok _ _ _ h
    simp only [Prod.mk.injEq] at hf
    obtain ⟨h1, _⟩ := hf
    subst h1
    simp only [List.map_cons, TraceItem.render, List.flatten_cons, List.singleton_append]
    rw [ih tr2 er2 (notMem_tail hns) hx]
  | case5 fuel c l pos line ntok h1 h2 h3 e hmk =>
    intro tr er hns h
    rw [scanGo.eq_def] at h
    simp only [if_neg h1, if_neg h2, if_pos h3, hmk] at h
    exact Except.noConfusion h
  | case6 fuel c l pos line ntok h1 h2 h3 t hmk ih =>
    intro tr er hns h
    rw [scanGo.eq_def] at h
    simp only [if_neg h1, if_neg h2, if_pos h3, hmk] at h
    obtain ⟨⟨tr2, er2⟩, hx, hf⟩ := exceptMap_ok _ _ _ h
    simp only [Prod.mk.injEq] at hf
    obtain ⟨hh1, _⟩ := hf
    subst hh1
    simp only [List.map_cons, TraceItem.render, List.flatten_cons, mkToken_lexeme hmk,
      List.singleton_append]
    rw [ih tr2 er2 (notMem_tail hns) hx]
  | case7 fuel c l pos line ntok h1 h2 h3 h4 sd lex e hmk =>
    intro tr er hns h
    have hmk2 : mkToken (if (scanDelimited c l).2.2 = true then TokenType.string
        else TokenType.unknown) (c :: (scanDelimited c l).1) line pos
        (pos + (c :: (scanDelimited c l).1).length) = Except.error e := hmk
    rw [scanGo.eq_def] at h
    simp only [if_neg h1, if_neg h2, if_neg h3, if_pos h4, hmk2] at h
    exact Except.noConfusion h
  | case8 fuel c l pos line ntok h1 h2 h3 h4 sd lex t hmk ih =>
    intro tr er hns h
    have hmk2 : mkToken (if (scanDelimited c l).2.2 = true then TokenType.string
        else TokenType.unknown) (c :: (scanDelimited c l).1) line pos
        (pos + (c :: (scanDelimited c l).1).length) = Except.ok t := hmk
    rw [scanGo.eq_def] at h
    simp only [if_neg h1, if_neg h2, if_neg h3, if_pos h4, hmk2] at h
    obtain ⟨⟨tr2, er2⟩, hx, hf⟩ := exceptMap_ok _ _ _ h
    simp only [Prod.mk.injEq] at hf
    obtain ⟨hh1, _⟩ := hf
    subst hh1
    have hl : '/' ∉ l := notMem_tail hns
    have hsplit := scanDelimited_append c l
    have hrest : '/' ∉ (scanDelimited c l).2.1 := by
      intro hm
      exact hl (by rw [← hsplit]; exact List.mem_append_right _ hm)
    simp only [List.map_cons, TraceItem.render, List.flatten_cons, mkToken_lexeme hmk2]
    rw [ih tr2 er2 hrest hx]
    rw [List.cons_append, hsplit]
  | case9 fuel l pos line ntok sd e h1 h2 h3 h4 hmk =>
    intro tr er hns _
    exact absurd (List.mem_cons_self '/' l) hns
  | case10 fuel l pos line ntok sd t flags e h1 h2 h3 h4 hmk1 hmk2 =>
    intro tr er hns _
    exact absurd (List.mem_cons_self '/' l) hns
  | case11 fuel l pos line ntok sd t flags rest2 t1 h1 h2 h3 h4 hmk1 hmk2 ih =>
    intro tr er hns _
    exact absurd (List.mem_cons_self '/' l) hns
  | case12 fuel c l pos line ntok h1 h2 h3 h4 h5 h6 db lex e hmk =>
    intro tr er hns h
    have hmk2 : mkToken TokenType.number (c :: (digitBody l).1) line pos
        (pos + (c :: (digitBody l).1).length) = Except.error e := hmk
    rw [scanGo.eq_def] at h
    simp only [if_neg h1, if_neg h2, if_neg h3, if_neg h4, if_neg h5, if_pos h6, hmk2] at h
    exact Except.noConfusion h
  | case13 fuel c l pos line ntok h1 h2 h3 h4 h5 h6 db lex t hmk ih =>
    intro tr er hns h
    have hmk2 : mkToken TokenType.number (c :: (digitBody l).1) line pos
        (pos + (c :: (digitBody l).1).length) = Except.ok t := hmk
    rw [scanGo.eq_def] at h
    simp only [if_neg h1, if_neg h2, if_neg h3, if_neg h4, if_neg h5, if_pos h6, hmk2] at h
    obtain ⟨⟨tr2, er2⟩, hx, hf⟩ := exceptMap_ok _ _ _ h
    simp only [Prod.mk.injEq] at hf
    obtain ⟨hh1, _⟩ := hf
    subst hh1
    have hl : '/' ∉ l := notMem_tail hns
    have hsplit := digitBody_append l
    have hrest : '/' ∉ (digitBody l).2 := by
      intro hm
      exact hl (by rw [← hsplit]; exact List.mem_append_right _ hm)
    simp only [List.map_cons, TraceItem.render, List.flatten_cons, mkToken_lexeme hmk2]
    rw [ih tr2 er2 hrest hx]
    rw [List.cons_append, hsplit]
  | case14 fuel c l pos line ntok h1 h2 h3 h4 h5 h6 h7 idnt lex e hmk =>
    intro tr er hns h
    have hmk2 : mkToken TokenType.identifier (c :: List.takeWhile isIdentCont l) line pos
        (pos + (c :: List.takeWhile isIdentCont l).length) = Except.error e := hmk
    rw [scanGo.eq_def] at h
    simp only [if_neg h1, if_neg h2, if_neg h3, if_neg h4, if_neg h5, if_neg h6, if_pos h7,
      hmk2] at h
    exact Except.noConfusion h
  | case15 fuel c l pos line ntok h1 h2 h3 h4 h5 h6 h7 idnt rest lex t hmk ih =>
    intro tr er hns h
    have hmk2 : mkToken TokenType.identifier (c :: List.takeWhile isIdentCont l) line pos
        (pos + (c :: List.takeWhile isIdentCont l).length) = Except.ok t := hmk
    rw [scanGo.eq_def] at h
    simp only [if_neg h1, if_neg h2, if_neg h3, if_neg h4, if_neg h5, if_neg h6, if_pos h7,
      hmk2] at h
    obtain ⟨⟨tr2, er2⟩, hx, hf⟩ := exceptMap_ok _ _ _ h
    simp only [Prod.mk.injEq] at hf
    obtain ⟨hh1, _⟩ := hf
    subst hh1
    have hl : '/' ∉ l := notMem_tail hns
    have hsplit : List.takeWhile isIdentCont l ++ List.dropWhile isIdentCont l = l :=
      List.takeWhile_append_dropWhile isIdentCont l
    have hrest : '/' ∉ List.dropWhile isIdentCont l := by
      intro hm
      exact hl (by rw [← hsplit]; exact List.mem_append_right _ hm)
    simp only [List.map_cons, TraceItem.render, List.flatten_cons, mkToken_lexeme hmk2]
    rw [ih tr2 er2 hrest hx]
    rw [List.cons_append, hsplit]
  | case16 fuel c l pos line ntok h1 h2 h3 h4 h5 h6 h7 e hmk =>
    intro tr er hns h
    rw [scanGo.eq_def] at h
    simp only [if_neg h1, if_neg h2, if_neg h3, if_neg h4, if_neg h5, if_neg h6, if_neg h7,
      hmk] at h
    exact Except.noConfusion h
  | case17 fuel c l pos line ntok h1 h2 h3 h4 h5 h6 h7 t hmk ih =>
    intro tr er hns h
    rw [scanGo.eq_def] at h
    simp only [if_neg h1, if_neg h2, if_neg h3, if_neg h4, if_neg h5, if_neg h6, if_neg h7,
      hmk] at h
    obtain ⟨⟨tr2, er2⟩, hx, hf⟩ := exceptMap_ok _ _ _ h
    simp only [Prod.mk.injEq] at hf
    obtain ⟨hh1, _⟩ := hf
    subst hh1
    simp only [List.map_cons, TraceItem.render, List.flatten_cons, mkToken_lexeme hmk,
      List.singleton_append]
    rw [ih tr2 er2 (notMem_tail hns) hx]

/-! ## Pagination and the scrollable table
(`rusty_db_cli/src/connectors/base.rs`, `src/widgets/scrollable_table.rs`,
`rusty_db_cli/src/ui/components/scrollable_table.rs`) -/

/-- `pub const LIMIT: u32 = 100`. -/
def LIMIT : Nat := 100

/-- `struct PaginationInfo { start: u64, limit: u32 }`. -/
structure PaginationInfo where
  start : Nat
  limit : Nat
deriving DecidableEq, Repr

/-- `PaginationInfo::reset`. -/
def PaginationInfo.reset (_p : PaginationInfo) : PaginationInfo :=
  { limit := LIMIT, start := 0 }

/-- `struct ScrollableTableState` (widget state: usize fields). -/
structure ScrollableTableState where
  horizontalOffset : Nat
  verticalOffset : Nat
  verticalSelect : Nat
deriving DecidableEq, Repr

/-- `ScrollableTableState::reset`. -/
def ScrollableTableState.reset (_s : ScrollableTableState) : ScrollableTableState :=
  { horizontalOffset := 0, verticalOffset := 0, verticalSelect := 1 }

inductive VerticalDirection where
  | up
  | down
deriving DecidableEq, Repr

/-- `QueryEvent { query, pagination }` as carried by `Event::OnQuery`. -/
structure QueryEvent where
  query : String
  pagination : PaginationInfo
deriving DecidableEq, Repr

/-- The events `handle_next_vertical_movement` can emit.  Only `OnQuery` is
reachable from that method. -/
inductive TableEvent where
  | onQuery (e : QueryEvent)
deriving DecidableEq, Repr

/-- The fields of `ScrollableTableComponent` read or written by
`handle_next_vertical_movement`. -/
structure TableComponent where
  state : ScrollableTableState
  query : String
  horizontalOffset : Int
  verticalOffset : Int
  verticalOffsetMax : Int
  pagination : PaginationInfo
deriving DecidableEq, Repr

/-- `ScrollableTableComponent::handle_next_vertical_movement`
(scrollable_table.rs, lines 101-152), returning the mutated component together
with the events sent, in order.  `u64` addition wraps at `2 ^ 64`; the `i32 →
usize` casts appear as `Int.toNat` (the values cast are non-negative whenever
the branch is reachable). -/
def handleNextVerticalMovement (c0 : TableComponent) (dir : VerticalDirection) :
    TableComponent × List TableEvent :=
  let c1 : TableComponent :=
    match dir with
    | .down =>
      if c0.verticalOffset = 0 then
        { c0 with verticalOffset := min (c0.verticalOffset + 2) c0.verticalOffsetMax }
      else
        { c0 with verticalOffset := min (c0.verticalOffset + 1) c0.verticalOffsetMax }
    | .up => { c0 with verticalOffset := max (c0.verticalOffset - 1) 1 }
  let c2 : TableComponent :=
    if c1.verticalOffset > 10 then
      { c1 with state.verticalOffset := (c1.verticalOffset - 10).toNat }
    else
      { c1 with state.verticalOffset := 0, state.verticalSelect := c1.verticalOffset.toNat }
  let offset := c2.state.verticalOffset + c2.state.verticalSelect
  let (c3, evs1) :=
    if offset = LIMIT ∧ dir = .down then
      let ca := { c2 with verticalOffset := 1,
                          pagination.start := (c2.pagination.start + (LIMIT - 1)) % 2 ^ 64 }
      let cb := { ca with state := ca.state.reset }
      let cc := { cb with state.horizontalOffset := cb.horizontalOffset.toNat }
      (cc, [TableEvent.onQuery { query := cc.query, pagination := cc.pagination }])
    else (c2, [])
  if offset = 1 ∧ dir = .up ∧ c3.pagination.start > 0 ∧
      c3.pagination.start % (LIMIT - 1) = 0 then
    let ca := { c3 with verticalOffset := ((LIMIT : Int) - 1) }
    let cb := { ca with state.verticalOffset := (ca.verticalOffset - 10).toNat }
    let cc := { cb with state.verticalSelect := 10,
                        pagination.start := cb.pagination.start - (LIMIT - 1) }
    (cc, evs1 ++ [TableEvent.onQuery { query := cc.query, pagination := cc.pagination }])
  else (c3, evs1)

/-! ## `rusty_db_cli/src/connectors/postgresql/connector.rs` -/

/-- Rust `str::replace` with a single-character pattern. -/
def rustReplaceChar (s : String) (c : Char) (r : String) : String :=
  ⟨s.toList.foldr (fun ch acc => if ch = c then r.toList ++ acc else ch :: acc) []⟩

/-- The SQL text actually executed by `PostgresqlConnector::get_data`
(connector.rs, line 67): `format!("{} LIMIT {};", str.replace(';', ""), limit)`. -/
def pgRewriteQuery (s : String) (limit : Nat) : String :=
  rustReplaceChar s ';' "" ++ " LIMIT " ++ toString limit ++ ";"

/-- Modelled from the spec: the query rewriting that claim C8 describes —
strip one trailing `;` from the user's SQL, leave every other character
(including interior semicolons) unchanged, and append " LIMIT <limit>". -/
def specRewriteQuery (s : String) (limit : Nat) : String :=
  (if s.toList.getLast? = some ';' then String.mk s.toList.dropLast else s) ++
    " LIMIT " ++ toString limit

/-- `tokio_postgres::SimpleQueryMessage`, over an abstract row type. -/
inductive SimpleQueryMessage (R : Type) where
  | row (r : R)
  | commandComplete
  | rowDescription
deriving DecidableEq, Repr

/-- The `filter_map` in `get_data` keeping only `SimpleQueryMessage::Row`. -/
def simpleQueryRows {R : Type} (msgs : List (SimpleQueryMessage R)) : List R :=
  msgs.filterMap (fun m => match m with
    | .row r => some r
    | _ => none)

/-- `PostgresqlConnector::get_data` (connector.rs, lines 66-91), with the two
driver calls abstracted as oracles: `typedQuery` is `client.query`,
`simpleQuery` is `client.simple_query`, and `combine` is
`Object::from : (Row, SimpleQueryRow) -> Object`.  Rows are abstract: the
claims only concern which query text is executed and how the two result sets
are combined. -/
def pgGetData {TRow SRow Obj : Type}
    (typedQuery : String → List TRow)
    (simpleQuery : String → List (SimpleQueryMessage SRow))
    (combine : TRow × SRow → Obj)
    (s : String) (pagination : PaginationInfo) : List Obj :=
  let query := pgRewriteQuery s pagination.limit
  let resultTyped := typedQuery query
  let resultRaw := simpleQueryRows (simpleQuery query)
  (resultTyped.zip resultRaw).map combine

/-! ## `rusty_db_cli/src/ui/layouts.rs` -/

/-- Boolean list prefix test. -/
def listIsPrefix : List Char → List Char → Bool
  | [], _ => true
  | _ :: _, [] => false
  | a :: as, b :: bs => a = b && listIsPrefix as bs

/-- Boolean list infix test: some suffix of `hay` starts with `pat`. -/
def listContainsSub (hay pat : List Char) : Bool :=
  match hay with
  | [] => listIsPrefix pat []
  | _ :: t => listIsPrefix pat hay || listContainsSub t pat

/-- Rust `str::contains` with a string pattern. -/
def rustContains (s pat : String) : Bool :=
  listContainsSub s.toList pat.toList

/-- How `get_table_layout` (layouts.rs, lines 43-53) chooses the connector. -/
inductive ConnectorRoute where
  | documentStore
  | relational
  | panicked (msg : String)
deriving DecidableEq, Repr

/-- `get_table_layout`'s connector dispatch: a URI containing "mongodb" builds
the MongoDB connector; every other URI hits
`panic!("Other connectors are not implemented")`. -/
def getTableLayoutRoute (uri : String) : ConnectorRoute :=
  if rustContains uri "mongodb" then .documentStore
  else .panicked "Other connectors are not implemented"

/-- Modelled from the spec: the dispatch rule claim C9 describes — URIs
containing "mongodb" go to the document-store connector, all others to the
relational connector. -/
def specRoute (uri : String) : ConnectorRoute :=
  if rustContains uri "mongodb" then .documentStore else .relational

/-! ## The expression tree
(`rusty_db_cli_mongo/src/types/expressions.rs`; `parser.rs` declares the same
shapes) -/

/-- `struct RegexExpression`. -/
structure RegexExpression where
  regex : String
  flags : String

mutual

/-- `enum Identifier`. -/
inductive Identifier where
  | literal (l : Literal)
  | object (o : ObjectExpression)
  | array (a : ArrayExpression)
  | call (c : CallExpression)
  | regex (r : RegexExpression)

/-- `struct Property { key, value }`. -/
inductive Property where
  | mk (key value : Identifier)

/-- `struct ObjectExpression { properties }`. -/
inductive ObjectExpression where
  | mk (properties : List Property)

/-- `struct ArrayExpression { elements }`. -/
inductive ArrayExpression where
  | mk (elements : List Identifier)

/-- `enum MemberExpression`. -/
inductive MemberExpression where
  | primary (p : MemberExpressionPrimary)
  | recursive (m : MemberExpression) (i : Identifier)
  | call (c : CallExpression)

/-- `struct MemberExpressionPrimary { object, property }`. -/
inductive MemberExpressionPrimary where
  | mk (object property : Identifier)

/-- `enum CallExpression`. -/
inductive CallExpression where
  | primary (p : CallExpressionPrimary)
  | recursive (c : CallExpression) (params : ParametersExpression)
  | member (m : MemberExpression)

/-- `struct CallExpressionPrimary { params, callee }`. -/
inductive CallExpressionPrimary where
  | mk (params : ParametersExpression) (callee : Callee)

/-- `struct ParametersExpression { params }`. -/
inductive ParametersExpression where
  | mk (params : List Identifier)

/-- `enum Callee`. -/
inductive Callee where
  | identifier (i : Identifier)
  | member (m : MemberExpression)

end

def ObjectExpression.properties : ObjectExpression → List Property
  | .mk ps => ps

def ArrayExpression.elements : ArrayExpression → List Identifier
  | .mk es => es

def ParametersExpression.params : ParametersExpression → List Identifier
  | .mk ps => ps

def Property.key : Property → Identifier
  | .mk k _ => k

def Property.value : Property → Identifier
  | .mk _ v => v

def MemberExpressionPrimary.object : MemberExpressionPrimary → Identifier
  | .mk o _ => o

def MemberExpressionPrimary.property : MemberExpressionPrimary → Identifier
  | .mk _ p => p

def CallExpressionPrimary.params : CallExpressionPrimary → ParametersExpression
  | .mk ps _ => ps

def CallExpressionPrimary.callee : CallExpressionPrimary → Callee
  | .mk _ c => c

/-- `struct ExpressionStatement { expression }`. -/
structure ExpressionStatement where
  expression : CallExpression

mutual

/-- `enum Expression` (parser.rs). -/
inductive Expression where
  | program (p : Program)
  | expressionStatement (e : ExpressionStatement)
  | identifier (i : Identifier)
  | callExpression (c : CallExpression)
  | memberExpression (m : MemberExpression)
  | property (p : Property)
  | parametersExpression (p : ParametersExpression)

/-- `struct Program { body }`. -/
inductive Program where
  | mk (body : List Expression)

end

def Program.body : Program → List Expression
  | .mk b => b

/-! ## `rusty_db_cli_mongo/src/parser.rs` — the recursive-descent parser

The parser is embedded with explicit token-position passing and a fuel
argument that bounds the recursion depth.  Every recursive call of the Rust
parser consumes at least one token within a bounded number of nested calls, so
`parserFuel` below is never exhausted; the exhausted case is a distinguished
failure so that this fact is not needed for soundness of any theorem. -/

/-- `struct ParseError { token_pos, message }`. -/
structure ParseError where
  tokenPos : Nat
  message : String
deriving DecidableEq, Repr

/-- How a parser computation can fail: an ordinary `ParseError`, a Rust panic
(an `unwrap` of `None`), divergence (`Literal`'s `to_string` calls itself
forever on non-`String` literals), or fuel exhaustion (unreachable, see the
section comment). -/
inductive ParseFail where
  | parseErr (e : ParseError)
  | panicked
  | diverged
  | fuelOut
deriving DecidableEq, Repr

/-- Rust `Debug` rendering of a token type (matches the derived names). -/
def TokenType.debugStr : TokenType → String
  | .semicolon => "Semicolon"
  | .leftParen => "LeftParen"
  | .rightParen => "RightParen"
  | .leftBrace => "LeftBrace"
  | .rightBrace => "RightBrace"
  | .leftBracket => "LeftBracket"
  | .rightBracket => "RightBracket"
  | .comma => "Comma"
  | .dot => "Dot"
  | .colon => "Colon"
  | .identifier => "Identifier"
  | .string => "String"
  | .number => "Number"
  | .bool => "Bool"
  | .regex => "Regex"
  | .regexFlags => "RegexFlags"
  | .null => "Null"
  | .eof => "Eof"
  | .unknown => "Unknown"

/-- Schematic stand-in for Rust's `{:?}` of a token inside parser error
messages.  No claim inspects the text of a `ParseError`. -/
def Token.debugStr (t : Token) : String :=
  "Token(" ++ t.type.debugStr ++ ", " ++ String.mk t.lexeme ++ ")"

/-- `Parser::ensure_token`: fails when `current + 1 > tokens.len()`. -/
def ensureToken (tks : List Token) (cur : Nat) : Except ParseFail Unit :=
  if cur + 1 > tks.length then
    .error (.parseErr ⟨cur, "Unexpected end of program"⟩)
  else .ok ()

/-- `Parser::peek`. -/
def peekT (tks : List Token) (cur : Nat) : Except ParseFail Token :=
  match ensureToken tks cur with
  | .error e => .error e
  | .ok _ =>
    match tks.get? cur with
    | some t => .ok t
    | none => .error .panicked

/-- `Parser::peek_next`: `ensure_next_token` checks only `is_at_end`, so the
`unwrap` of `tokens.get(current + 1)` panics when `current` is the last
index. -/
def peekNextT (tks : List Token) (cur : Nat) : Except ParseFail Token :=
  if cur ≥ tks.length then
    .error (.parseErr ⟨cur, "Unexpected end of program"⟩)
  else
    match tks.get? (cur + 1) with
    | some t => .ok t
    | none => .error .panicked

/-- `Parser::advance`: the consumed token together with the new position. -/
def advanceT (tks : List Token) (cur : Nat) : Except ParseFail (Token × Nat) :=
  match ensureToken tks cur with
  | .error e => .error e
  | .ok _ =>
    match tks.get? cur with
    | some t => .ok (t, cur + 1)
    | none => .error .panicked

/-- `Parser::check`. -/
def checkT (tks : List Token) (cur : Nat) (tt : TokenType) : Except ParseFail Bool :=
  (peekT tks cur).map (fun t => t.type = tt)

/-- `Parser::check_next`. -/
def checkNextT (tks : List Token) (cur : Nat) (tt : TokenType) : Except ParseFail Bool :=
  (peekNextT tks cur).map (fun t => t.type = tt)

/-- `Parser::consume`. -/
def consumeT (tks : List Token) (cur : Nat) (tt : TokenType) :
    Except ParseFail (Token × Nat) :=
  match advanceT tks cur with
  | .error e => .error e
  | .ok (t, cur') =>
    if t.type = tt then .ok (t, cur')
    else .error (.parseErr ⟨cur' - 1,
      "Expected " ++ tt.debugStr ++ ", got " ++ t.debugStr⟩)

/-- `Parser::literal_expression`. -/
def literalExpressionP (tks : List Token) (cur : Nat) :
    Except ParseFail (Identifier × Nat) :=
  match peekT tks cur with
  | .error e => .error e
  | .ok t =>
    match t.literal with
    | some _ =>
      match advanceT tks cur with
      | .error e => .error e
      | .ok (tok, cur') =>
        match tok.literal with
        | some lit => .ok (.literal lit, cur')
        | none => .error .panicked
    | none => .error (.parseErr ⟨cur, "Expected literal, got " ++ t.debugStr⟩)

/-- `Parser::regex_expression`: two `advance` calls whose literals are
unwrapped and turned into strings via `Literal`'s `to_string` (which diverges
on non-`String` literals). -/
def regexExpressionP (tks : List Token) (cur : Nat) :
    Except ParseFail (Identifier × Nat) :=
  match advanceT tks cur with
  | .error e => .error e
  | .ok (t1, cur1) =>
    match t1.literal with
    | none => .error .panicked
    | some l1 =>
      match l1 with
      | .str s1 =>
        match advanceT tks cur1 with
        | .error e => .error e
        | .ok (t2, cur2) =>
          match t2.literal with
          | none => .error .panicked
          | some l2 =>
            match l2 with
            | .str s2 => .ok (.regex ⟨s1, s2⟩, cur2)
            | _ => .error .diverged
      | _ => .error .diverged

/-- `Parser::member_expression_primary`. -/
def memberExpressionPrimaryP (tks : List Token) (cur : Nat) :
    Except ParseFail (MemberExpressionPrimary × Nat) :=
  match literalExpressionP tks cur with
  | .error e => .error e
  | .ok (object, cur1) =>
    match consumeT tks cur1 .dot with
    | .error e => .error e
    | .ok (_, cur2) =>
      match literalExpressionP tks cur2 with
      | .error e => .error e
      | .ok (property, cur3) => .ok (.mk object property, cur3)

mutual

/-- `Parser::expression_statement`. -/
def expressionStatementP (fuel : Nat) (tks : List Token) (cur : Nat) :
    Except ParseFail (ExpressionStatement × Nat) :=
  match fuel with
  | 0 => .error .fuelOut
  | n + 1 =>
    match checkNextT tks cur .dot with
    | .error e => .error e
    | .ok true =>
      match memberExpressionP n tks cur with
      | .error e => .error e
      | .ok (member, cur1) =>
        match callExpressionP n tks cur1 (.member member) with
        | .error e => .error e
        | .ok (call, cur2) => .ok (⟨call⟩, cur2)
    | .ok false =>
      match identifierExpressionP n tks cur with
      | .error e => .error e
      | .ok (id, cur1) =>
        match callExpressionP n tks cur1 (.identifier id) with
        | .error e => .error e
        | .ok (call, cur2) => .ok (⟨call⟩, cur2)

/-- `Parser::identifier_expression`.  A `ParseError` from
`literal_expression` is discarded by `.ok()` and replaced by the shared
"Expected primary expression" error; panics and divergence propagate. -/
def identifierExpressionP (fuel : Nat) (tks : List Token) (cur : Nat) :
    Except ParseFail (Identifier × Nat) :=
  match fuel with
  | 0 => .error .fuelOut
  | n + 1 =>
    match peekT tks cur with
    | .error e => .error e
    | .ok t =>
      match t.type with
      | .identifier | .number | .string | .bool | .null =>
        match literalExpressionP tks cur with
        | .ok r => .ok r
        | .error (.parseErr _) =>
          .error (.parseErr ⟨cur,
            "Expected primary expression, got " ++ t.debugStr ++ " instead"⟩)
        | .error other => .error other
      | .leftBrace =>
        match objectExpressionP n tks cur with
        | .error e => .error e
        | .ok (o, cur1) => .ok (.object o, cur1)
      | .leftBracket =>
        match arrayExpressionP n tks cur with
        | .error e => .error e
        | .ok (a, cur1) => .ok (.array a, cur1)
      | .regex => regexExpressionP tks cur
      | _ =>
        .error (.parseErr ⟨cur,
          "Expected primary expression, got " ++ t.debugStr ++ " instead"⟩)

/-- `Parser::object_expression`: consume the opening brace, then the
bracket-counting loop. -/
def objectExpressionP (fuel : Nat) (tks : List Token) (cur : Nat) :
    Except ParseFail (ObjectExpression × Nat) :=
  match fuel with
  | 0 => .error .fuelOut
  | n + 1 =>
    match advanceT tks cur with
    | .error e => .error e
    | .ok (_, cur1) => objectLoopP n tks cur1 1 []

/-- The `while brackets > 0 || self.is_at_end()` loop of
`object_expression`, with its dead post-loop end-of-input check. -/
def objectLoopP (fuel : Nat) (tks : List Token) (cur : Nat) (brackets : Int)
    (props : List Property) : Except ParseFail (ObjectExpression × Nat) :=
  match fuel with
  | 0 => .error .fuelOut
  | n + 1 =>
    if brackets > 0 ∨ cur ≥ tks.length then
      match checkT tks cur .leftBrace with
      | .error e => .error e
      | .ok true =>
        match advanceT tks cur with
        | .error e => .error e
        | .ok (_, cur1) => objectLoopP n tks cur1 (brackets + 1) props
      | .ok false =>
        match checkT tks cur .rightBrace with
        | .error e => .error e
        | .ok true =>
          match advanceT tks cur with
          | .error e => .error e
          | .ok (_, cur1) => objectLoopP n tks cur1 (brackets - 1) props
        | .ok false =>
          match propertyExpressionP n tks cur with
          | .error e => .error e
          | .ok (p, cur1) =>
            match checkT tks cur1 .comma with
            | .error e => .error e
            | .ok true =>
              match advanceT tks cur1 with
              | .error e => .error e
              | .ok (_, cur2) => objectLoopP n tks cur2 brackets (props ++ [p])
            | .ok false => objectLoopP n tks cur1 brackets (props ++ [p])
    else
      if cur ≥ tks.length ∧ brackets ≠ 0 then
        .error (.parseErr ⟨cur, "Unexpected end of object expression"⟩)
      else .ok (.mk props, cur)

/-- `Parser::property_expression`. -/
def propertyExpressionP (fuel : Nat) (tks : List Token) (cur : Nat) :
    Except ParseFail (Property × Nat) :=
  match fuel with
  | 0 => .error .fuelOut
  | n + 1 =>
    match literalExpressionP tks cur with
    | .error e => .error e
    | .ok (key, cur1) =>
      match consumeT tks cur1 .colon with
      | .error e => .error e
      | .ok (_, cur2) =>
        match identifierExpressionP n tks cur2 with
        | .error e => .error e
        | .ok (value, cur3) =>
          match checkT tks cur3 .leftParen with
          | .error e => .error e
          | .ok true =>
            match callExpressionP n tks cur3 (.identifier value) with
            | .error e => .error e
            | .ok (call, cur4) => .ok (.mk key (.call call), cur4)
          | .ok false => .ok (.mk key value, cur3)

/-- `Parser::array_expression`. -/
def arrayExpressionP (fuel : Nat) (tks : List Token) (cur : Nat) :
    Except ParseFail (ArrayExpression × Nat) :=
  match fuel with
  | 0 => .error .fuelOut
  | n + 1 =>
    match consumeT tks cur .leftBracket with
    | .error e => .error e
    | .ok (_, cur1) => arrayLoopP n tks cur1 []

/-- The element loop of `array_expression`, including its dead post-loop
end-of-input check. -/
def arrayLoopP (fuel : Nat) (tks : List Token) (cur : Nat)
    (args : List Identifier) : Except ParseFail (ArrayExpression × Nat) :=
  match fuel with
  | 0 => .error .fuelOut
  | n + 1 =>
    match checkT tks cur .rightBracket with
    | .error e => .error e
    | .ok true =>
      if cur ≥ tks.length then
        .error (.parseErr ⟨cur, "Expected end of array expression"⟩)
      else
        match consumeT tks cur .rightBracket with
        | .error e => .error e
        | .ok (_, cur1) => .ok (.mk args, cur1)
    | .ok false =>
      match identifierExpressionP n tks cur with
      | .error e => .error e
      | .ok (id, cur1) =>
        match checkT tks cur1 .leftParen with
        | .error e => .error e
        | .ok true =>
          match callExpressionP n tks cur1 (.identifier id) with
          | .error e => .error e
          | .ok (call, cur2) => arrayCommaP n tks cur2 (args ++ [.call call])
        | .ok false => arrayCommaP n tks cur1 (args ++ [id])

/-- The trailing `if !check(RightBracket) { consume(Comma) }` step of the
array loop, then back around. -/
def arrayCommaP (fuel : Nat) (tks : List Token) (cur : Nat)
    (args : List Identifier) : Except ParseFail (ArrayExpression × Nat) :=
  match fuel with
  | 0 => .error .fuelOut
  | n + 1 =>
    match checkT tks cur .rightBracket with
    | .error e => .error e
    | .ok true => arrayLoopP n tks cur args
    | .ok false =>
      match consumeT tks cur .comma with
      | .error e => .error e
      | .ok (_, cur1) => arrayLoopP n tks cur1 args

/-- `Parser::parameters_expression`. -/
def parametersExpressionP (fuel : Nat) (tks : List Token) (cur : Nat) :
    Except ParseFail (ParametersExpression × Nat) :=
  match fuel with
  | 0 => .error .fuelOut
  | n + 1 =>
    match consumeT tks cur .leftParen with
    | .error e => .error e
    | .ok (_, cur1) => paramsLoopP n tks cur1 []

/-- The argument loop of `parameters_expression`, including its dead
post-loop end-of-input check and the final `advance`. -/
def paramsLoopP (fuel : Nat) (tks : List Token) (cur : Nat)
    (args : List Identifier) : Except ParseFail (ParametersExpression × Nat) :=
  match fuel with
  | 0 => .error .fuelOut
  | n + 1 =>
    match checkT tks cur .rightParen with
    | .error e => .error e
    | .ok true =>
      if cur ≥ tks.length then
        .error (.parseErr ⟨cur, "Unexpected end of parameters expression"⟩)
      else
        match advanceT tks cur with
        | .error e => .error e
        | .ok (_, cur1) => .ok (.mk args, cur1)
    | .ok false =>
      match identifierExpressionP n tks cur with
      | .error e => .error e
      | .ok (id, cur1) =>
        match checkT tks cur1 .comma with
        | .error e => .error e
        | .ok true =>
          match advanceT tks cur1 with
          | .error e => .error e
          | .ok (_, cur2) => paramsLoopP n tks cur2 (args ++ [id])
        | .ok false => paramsLoopP n tks cur1 (args ++ [id])

/-- `Parser::call_expression`. -/
def callExpressionP (fuel : Nat) (tks : List Token) (cur : Nat)
    (callee : Callee) : Except ParseFail (CallExpression × Nat) :=
  match fuel with
  | 0 => .error .fuelOut
  | n + 1 =>
    match parametersExpressionP n tks cur with
    | .error e => .error e
    | .ok (params, cur1) =>
      callExpressionRecursiveP n tks cur1 (.primary (.mk params callee))

/-- `Parser::call_expression_recursive`. -/
def callExpressionRecursiveP (fuel : Nat) (tks : List Token) (cur : Nat)
    (base : CallExpression) : Except ParseFail (CallExpression × Nat) :=
  match fuel with
  | 0 => .error .fuelOut
  | n + 1 =>
    if cur ≥ tks.length then .ok (base, cur)
    else
      match checkT tks cur .leftParen with
      | .error e => .error e
      | .ok true =>
        match parametersExpressionP n tks cur with
        | .error e => .error e
        | .ok (params, cur1) =>
          callExpressionRecursiveP n tks cur1 (.recursive base params)
      | .ok false =>
        match checkT tks cur .dot with
        | .error e => .error e
        | .ok true =>
          match memberExpressionRecursiveP n tks cur (.call base) with
          | .error e => .error e
          | .ok (member, cur1) =>
            callExpressionRecursiveP n tks cur1 (.member member)
        | .ok false => .ok (base, cur)

/-- `Parser::member_expression_recursive`. -/
def memberExpressionRecursiveP (fuel : Nat) (tks : List Token) (cur : Nat)
    (base : MemberExpression) : Except ParseFail (MemberExpression × Nat) :=
  match fuel with
  | 0 => .error .fuelOut
  | n + 1 =>
    if cur ≥ tks.length then
      .error (.parseErr ⟨cur, "Unexpected end of member expression"⟩)
    else
      match checkT tks cur .dot with
      | .error e => .error e
      | .ok true =>
        match consumeT tks cur .dot with
        | .error e => .error e
        | .ok (_, cur1) =>
          match literalExpressionP tks cur1 with
          | .error e => .error e
          | .ok (object, cur2) =>
            memberExpressionRecursiveP n tks cur2 (.recursive base object)
      | .ok false => .ok (base, cur)

/-- `Parser::member_expression`. -/
def memberExpressionP (fuel : Nat) (tks : List Token) (cur : Nat) :
    Except ParseFail (MemberExpression × Nat) :=
  match fuel with
  | 0 => .error .fuelOut
  | n + 1 =>
    match memberExpressionPrimaryP tks cur with
    | .error e => .error e
    | .ok (prim, cur1) => memberExpressionRecursiveP n tks cur1 (.primary prim)

end

/-- The statement loop of `Parser::parse` (parser.rs, lines 517-542).  The
`||` between the two `check_next` calls short-circuits. -/
def parseLoopP (fuel : Nat) (tks : List Token) (cur : Nat)
    (acc : List Expression) : Except ParseFail Program :=
  match fuel with
  | 0 => .error .fuelOut
  | n + 1 =>
    if cur ≥ tks.length then .ok (.mk acc)
    else
      match peekT tks cur with
      | .error e => .error e
      | .ok t =>
        match t.type with
        | .identifier =>
          match checkNextT tks cur .dot with
          | .error e => .error e
          | .ok c1 =>
            match (if c1 then Except.ok true else checkNextT tks cur .leftParen) with
            | .error e => .error e
            | .ok true =>
              match expressionStatementP n tks cur with
              | .error e => .error e
              | .ok (es, cur1) =>
                parseLoopP n tks cur1 (acc ++ [Expression.expressionStatement es])
            | .ok false =>
              .error (.parseErr ⟨cur, "Expected expression, got identifier"⟩)
        | _ =>
          .error (.parseErr ⟨cur, "Expected identifier, got Ok(" ++ t.debugStr ++ ")"⟩)

/-- Fuel that the Rust parser's recursion depth never reaches (each level of
nesting consumes a token within a bounded number of calls). -/
def parserFuel (tks : List Token) : Nat := 8 * tks.length + 16

/-- `Parser::parse`. -/
def Parser.parse (tks : List Token) : Except ParseFail Program :=
  parseLoopP (parserFuel tks) tks 0 []

/-- Modelled from the spec: `Parser::try_parse` is invoked by
`Interpreter::try_parse` but its body is not part of the sources here; the
spec describes it as partial-parse with fallback — on a parse error, retry by
truncating the token stream to just before the offending token and
re-parsing, retaining the first error encountered as the diagnostic.
Truncation is clamped below the current length so that each retry strictly
shrinks the stream.  Panics and divergence propagate. -/
def tryParseGo (tks : List Token) (firstErr : Option ParseError) :
    Except ParseFail (Program × Option ParseError) :=
  match Parser.parse tks with
  | .ok p => .ok (p, firstErr)
  | .error (.parseErr e) =>
    match tks with
    | [] => .ok (.mk [], some (firstErr.getD e))
    | h :: t =>
      tryParseGo ((h :: t).take (min e.tokenPos ((h :: t).length - 1)))
        (some (firstErr.getD e))
  | .error other => .error other
termination_by tks.length
decreasing_by
  simp only [List.length_take, List.length_cons]
  omega

/-- `Interpreter::try_parse` (interpreter.rs, lines 79-82). -/
def Interpreter.tryParse (tks : List Token) :
    Except ParseFail (Program × Option ParseError) :=
  tryParseGo tks none

/-! ## Parameter serialization to driver documents
(`rusty_db_cli_mongo/src/types/expressions.rs`, `Serialize` impls) -/

/-- `struct InterpreterError { message }`. -/
structure InterpreterError where
  message : String
deriving DecidableEq, Repr

/-- Outcome of a fallible plan-builder computation: success, an error value
carried to the caller (its message text), a Rust panic, or divergence (a call
that never returns). -/
inductive RResult (α : Type) where
  | ok (a : α)
  | error (msg : String)
  | panicked
  | diverged

def RResult.bind {α β : Type} : RResult α → (α → RResult β) → RResult β
  | .ok a, f => f a
  | .error m, _ => .error m
  | .panicked, _ => .panicked
  | .diverged, _ => .diverged

def RResult.map {α β : Type} (f : α → β) : RResult α → RResult β
  | .ok a => .ok (f a)
  | .error m => .error m
  | .panicked => .panicked
  | .diverged => .diverged

def natOfDigits (cs : List Char) : Nat :=
  cs.foldl (fun a c => a * 10 + (c.toNat - 48)) 0

def isLeapYear (y : Nat) : Bool :=
  y % 4 = 0 && (y % 100 ≠ 0 || y % 400 = 0)

def daysInMonth (y m : Nat) : Nat :=
  if m = 2 then (if isLeapYear y then 29 else 28)
  else if m = 4 ∨ m = 6 ∨ m = 9 ∨ m = 11 then 30
  else 31

/-- chrono `NaiveDate::parse_from_str(s, "%Y-%m-%d")`, approximated: three
dash-separated decimal fields forming a calendar-valid date.  No claim
inspects date values. -/
def parseYmd (s : String) : Option (Nat × Nat × Nat) :=
  match s.splitOn "-" with
  | [ys, ms, ds] =>
    if ys ≠ "" ∧ ys.length ≤ 4 ∧ ys.toList.all Char.isDigit ∧
        ms ≠ "" ∧ ms.length ≤ 2 ∧ ms.toList.all Char.isDigit ∧
        ds ≠ "" ∧ ds.length ≤ 2 ∧ ds.toList.all Char.isDigit then
      let y := natOfDigits ys.toList
      let m := natOfDigits ms.toList
      let d := natOfDigits ds.toList
      if 1 ≤ m ∧ m ≤ 12 ∧ 1 ≤ d ∧ d ≤ daysInMonth y m then some (y, m, d) else none
    else none
  | _ => none

/-- Offset-or-fraction tail of an RFC 3339 timestamp. -/
def rfc3339TailOk : List Char → Bool
  | ['Z'] => true
  | ['z'] => true
  | c :: h1 :: h2 :: ':' :: m1 :: m2 :: [] =>
    (c = '+' || c = '-') && h1.isDigit && h2.isDigit && m1.isDigit && m2.isDigit &&
      natOfDigits [h1, h2] < 24 && natOfDigits [m1, m2] < 60
  | '.' :: rest =>
    let fr := rest.takeWhile Char.isDigit
    decide (fr ≠ []) && rfc3339TailOk (rest.dropWhile Char.isDigit)
  | _ => false
termination_by cs => cs.length
decreasing_by
  simp only [List.length_cons]
  have := dropWhile_length_le Char.isDigit rest
  omega

/-- chrono `DateTime::parse_from_rfc3339`, approximated as a recognizer.  No
claim inspects date values. -/
def rfc3339Ok (s : String) : Bool :=
  match s.toList with
  | y1 :: y2 :: y3 :: y4 :: '-' :: m1 :: m2 :: '-' :: d1 :: d2 :: tsep ::
      h1 :: h2 :: ':' :: mi1 :: mi2 :: ':' :: s1 :: s2 :: rest =>
    [y1, y2, y3, y4, m1, m2, d1, d2, h1, h2, mi1, mi2, s1, s2].all Char.isDigit &&
      (tsep = 'T' || tsep = 't') &&
      (1 ≤ natOfDigits [m1, m2] && natOfDigits [m1, m2] ≤ 12) &&
      (1 ≤ natOfDigits [d1, d2] &&
        natOfDigits [d1, d2] ≤ daysInMonth (natOfDigits [y1, y2, y3, y4]) (natOfDigits [m1, m2])) &&
      natOfDigits [h1, h2] < 24 && natOfDigits [mi1, mi2] < 60 &&
      natOfDigits [s1, s2] ≤ 60 && rfc3339TailOk rest
  | _ => false

/-- `enum ParsedDate`: a bare date (midnight UTC) or an RFC 3339 instant.  The
instant is carried as its source text; the claims never compare instants. -/
inductive ParsedDate where
  | naive (y m d : Nat)
  | rfc3339 (raw : String)
deriving DecidableEq, Repr

/-- `parse_date_string` (types/expressions.rs, lines 226-241). -/
def parseDateString (s : String) : Except InterpreterError ParsedDate :=
  match parseYmd s with
  | some (y, m, d) => .ok (.naive y m d)
  | none =>
    if rfc3339Ok s then .ok (.rfc3339 s)
    else .error ⟨"Expected valid date string, got " ++ s ++ " instead"⟩

/-- The BSON value tree produced when query parameters are serialized for the
driver.  `double` carries the literal text (see `Number`); `objectId` carries
the twelve decoded bytes. -/
inductive Bson where
  | string (s : String)
  | int32 (n : Int)
  | int64 (n : Int)
  | double (text : String)
  | bool (b : Bool)
  | null
  | document (fields : List (String × Bson))
  | array (elems : List Bson)
  | objectId (bytes : List Nat)
  | dateTime (d : ParsedDate)
  | regex (pattern options : String)

/-- `bson::Document::insert` semantics: replace an existing key in place,
otherwise append. -/
def docInsert (d : List (String × Bson)) (k : String) (v : Bson) :
    List (String × Bson) :=
  if d.any (fun p => p.1 = k) then
    d.map (fun p => if p.1 = k then (k, v) else p)
  else d ++ [(k, v)]

/-- `bson::Document::get`. -/
def docGet (d : List (String × Bson)) (k : String) : Option Bson :=
  (d.find? (fun p => p.1 = k)).map (fun p => p.2)

/-- `bson::Document::get_i64`: succeeds only on a `Bson::Int64` value. -/
def docGetI64 (d : List (String × Bson)) (k : String) : Option Int :=
  match docGet d k with
  | some (.int64 v) => some v
  | _ => none

/-- `bson::Document::get_document`. -/
def docGetDocument (d : List (String × Bson)) (k : String) :
    Option (List (String × Bson)) :=
  match docGet d k with
  | some (.document v) => some v
  | _ => none

def hexPairsToBytes : List Char → Option (List Nat)
  | [] => some []
  | a :: b :: rest => do
    let x ← hexVal a
    let y ← hexVal b
    let r ← hexPairsToBytes rest
    pure ((x * 16 + y) :: r)
  | _ => none

/-- `ObjectId::from_str`: exactly 24 hexadecimal characters decode to the
12-byte identifier. -/
def objectIdFromStr (s : String) : Option (List Nat) :=
  if s.length = 24 then hexPairsToBytes s.toList else none

/-- `impl Serialize for Literal` together with `Serialize for Number` and
`Serialize for Null`. -/
def serializeLiteral : Literal → Bson
  | .str s => .string s
  | .num (.i32 n) => .int32 n
  | .num (.i64 n) => .int64 n
  | .num (.f64 t) => .double t
  | .bool b => .bool b
  | .null => .null

/-- Serializing an `Identifier` in document-key position: the BSON serializer
accepts only string keys.  The error text is schematic; no claim inspects
it. -/
def serializeKey : Identifier → RResult String
  | .literal (.str s) => .ok s
  | _ => .error "InvalidDocumentKey"

/-- `impl Serialize for CallExpression` (types/expressions.rs, lines
156-199).  The unwraps on the callee and on parameter conversion are panics;
in particular `ObjectId::from_str(&value).unwrap()` panics on a string that
is not 24 hex characters instead of surfacing the error. -/
def serializeCall : CallExpression → RResult Bson
  | .primary (.mk params callee) =>
    match callee with
    | .identifier (.literal (.str key)) =>
      if key = "DateTime" then
        if params.params.length > 1 then .error "DateTime can only have one parameter"
        else
          match params.params with
          | .literal (.str value) :: _ =>
            match parseDateString value with
            | .ok d => .ok (.dateTime d)
            | .error err => .error err.message
          | _ => .panicked
      else if key = "ObjectId" then
        if params.params.length > 1 then .error "ObjectId can only have one parameter"
        else
          match params.params with
          | .literal (.str value) :: _ =>
            match objectIdFromStr value with
            | some bytes => .ok (.objectId bytes)
            | none => .panicked
          | _ => .panicked
      else .error "Invalid primary call expression."
    | _ => .panicked
  | _ => .error "Non primary call expression cannot be serialized"

mutual

/-- `impl Serialize for Identifier`. -/
def serializeIdentifier : Identifier → RResult Bson
  | .literal lit => .ok (serializeLiteral lit)
  | .object o => serializeObject o
  | .array (.mk elems) => (serializeElems elems).map Bson.array
  | .call c => serializeCall c
  | .regex r => .ok (.regex r.regex r.flags)

/-- `impl Serialize for ObjectExpression`: a map of entries, key first. -/
def serializeObject : ObjectExpression → RResult Bson
  | .mk props => (serializeProps props []).map Bson.document

def serializeProps : List Property → List (String × Bson) →
    RResult (List (String × Bson))
  | [], acc => .ok acc
  | .mk k v :: rest, acc =>
    (serializeKey k).bind fun ks =>
      (serializeIdentifier v).bind fun vb =>
        serializeProps rest (docInsert acc ks vb)

/-- `impl Serialize for ArrayExpression`. -/
def serializeElems : List Identifier → RResult (List Bson)
  | [] => .ok []
  | i :: rest =>
    (serializeIdentifier i).bind fun b => (serializeElems rest).map (b :: ·)

end

/-- `to_bson` on an `Option<ObjectExpression>`: `None` serializes to
`Bson::Null`, so the following `if let Bson::Document` does not fire. -/
def toBsonOptionObject : Option ObjectExpression → RResult Bson
  | none => .ok .null
  | some o => serializeObject o

/-! ## `rusty_db_cli/src/connectors/mongodb/connector.rs` — commands and
modifiers -/

/-- `mongodb::options::Hint`. -/
inductive Hint where
  | keys (d : List (String × Bson))
  | name (s : String)

/-- The fields of `mongodb::options::FindOptions` the code uses. -/
structure FindOptions where
  batchSize : Option Nat := none
  projection : Option (List (String × Bson)) := none
  sort : Option (List (String × Bson)) := none
  allowDiskUse : Option Bool := none
  hint : Option Hint := none
  skip : Option Nat := none
  limit : Option Int := none

/-- `struct FindQuery`. -/
structure FindQuery where
  options : FindOptions := {}
  count : Bool := false
  filter : Option (List (String × Bson)) := none
  explain : Bool := false

/-- The fields of `mongodb::options::AggregateOptions` the code uses. -/
structure AggregateOptions where
  allowDiskUse : Option Bool := none
  hint : Option Hint := none

/-- `struct AggregateQuery`. -/
structure AggregateQuery where
  pipelines : List (List (String × Bson))
  options : AggregateOptions
  skip : Option Nat
  limit : Option Int
  explain : Bool

/-- `struct CountQuery`. -/
structure CountQuery where
  filter : Option (List (String × Bson)) := none
  options : AggregateOptions := {}

/-- The fields of `mongodb::options::DistinctOptions` the code uses.
`maxTime` holds milliseconds (`Duration::from_millis(max_time as u64)`); the
three document-valued options keep the deserialized source document. -/
structure DistinctOptions where
  maxTime : Option Nat := none
  collation : Option (List (String × Bson)) := none
  selectionCriteria : Option (List (String × Bson)) := none
  readConcern : Option (List (String × Bson)) := none

/-- `struct DistinctQuery`. -/
structure DistinctQuery where
  field : String
  filter : Option (List (String × Bson))
  options : DistinctOptions

/-- `enum Command`. -/
inductive Command where
  | find (q : FindQuery)
  | count (q : CountQuery)
  | aggregate (q : AggregateQuery)
  | distinct (q : DistinctQuery)
  | getIndexes

/-- `enum SubCommand`. -/
inductive SubCommand where
  | count
  | sort (d : Option (List (String × Bson)))
  | allowDiskUse
  | explain
  | hint (h : Option Hint)
  | skip (n : Option Nat)
  | limit (n : Option Int)

/-- Rust `str::to_lowercase`, restricted to ASCII folding.  The full Unicode
mapping differs only on characters that can never make a command name equal
to one of the recognized (all-ASCII) names. -/
def rustToLowercase (s : String) : String :=
  ⟨s.toList.map Char.toLower⟩

/-- `get_nth_of_type::<ObjectExpression>(n).ok()`: `Some` exactly when the
nth parameter exists and is an object literal. -/
def getNthObject (params : ParametersExpression) (n : Nat) :
    Option ObjectExpression :=
  match params.params.get? n with
  | some (.object o) => some o
  | _ => none

/-- `get_nth_of_type::<Literal>(n)` with the source's error messages. -/
def getNthLiteral (params : ParametersExpression) (n : Nat) : RResult Literal :=
  if n ≥ params.params.length then
    .error ("Expected parameter at index " ++ toString n ++ " but got " ++
      toString params.params.length ++ " parameters")
  else
    match params.params.get? n with
    | some (.literal l) => .ok l
    | some _ => .error "Failed to convert parameter"
    | none => .panicked

/-- `get_nth_of_type::<ObjectExpression>(n)` with the source's error
messages. -/
def getNthObjectR (params : ParametersExpression) (n : Nat) :
    RResult ObjectExpression :=
  if n ≥ params.params.length then
    .error ("Expected parameter at index " ++ toString n ++ " but got " ++
      toString params.params.length ++ " parameters")
  else
    match params.params.get? n with
    | some (.object o) => .ok o
    | some _ => .error "Failed to convert parameter"
    | none => .panicked

/-- `get_nth_of_type::<Identifier>(n)` (the identity conversion). -/
def getNthIdentifier (params : ParametersExpression) (n : Nat) :
    RResult Identifier :=
  if n ≥ params.params.length then
    .error ("Expected parameter at index " ++ toString n ++ " but got " ++
      toString params.params.length ++ " parameters")
  else
    match params.params.get? n with
    | some i => .ok i
    | none => .panicked

/-- `impl From<Number> for u64`: `as` casts.  Integer casts wrap modulo
`2 ^ 64`; the float cast truncates toward zero and saturates.  For `F64` the
payload is the literal text, and the truncation below matches Rust exactly
when that text's value is exactly representable as an `f64`; no claim
evaluates the float path. -/
def f64TextTruncNat (t : String) : Nat :=
  match t.toList with
  | '-' :: _ => 0
  | cs => min (natOfDigits (cs.takeWhile Char.isDigit)) (2 ^ 64 - 1)

def numberToU64 : Number → Nat
  | .i64 v => ((v : Int) % (2 : Int) ^ 64).toNat
  | .i32 v => ((v : Int) % (2 : Int) ^ 64).toNat
  | .f64 t => f64TextTruncNat t

/-- `impl From<Number> for i64` (the float cast saturates to the i64 range).
-/
def numberToI64 : Number → Int
  | .i64 v => v
  | .i32 v => v
  | .f64 t =>
    match t.toList with
    | '-' :: cs => max (-(natOfDigits (cs.takeWhile Char.isDigit) : Int)) i64Min
    | cs => min ((natOfDigits (cs.takeWhile Char.isDigit) : Int)) i64Max

/-- Modelled: `from_document::<Collation>` requires the (string-valued)
`locale` field; other fields are optional and unknown fields are ignored.
The deserialized value is carried as the source document. -/
def collationFromDoc (d : List (String × Bson)) : RResult (List (String × Bson)) :=
  match docGet d "locale" with
  | some (.string _) => .ok d
  | _ => .error "failed to deserialize collation document"

/-- Modelled: `from_document::<SelectionCriteria>` requires a read-preference
`mode` field with a string value. -/
def selectionCriteriaFromDoc (d : List (String × Bson)) :
    RResult (List (String × Bson)) :=
  match docGet d "mode" with
  | some (.string _) => .ok d
  | _ => .error "failed to deserialize selection criteria document"

/-- Modelled: `from_document::<ReadConcern>` requires a `level` field with a
string value. -/
def readConcernFromDoc (d : List (String × Bson)) :
    RResult (List (String × Bson)) :=
  match docGet d "level" with
  | some (.string _) => .ok d
  | _ => .error "failed to deserialize read concern document"

/-- The `filter`/`opts` extraction of the distinct branch:
`get_nth_of_type::<ObjectExpression>(n).ok().and_then(|obj|
to_bson(&obj).ok()).and_then(doc)`.  Serialization *errors* are swallowed to
`None` by `.ok()`, but panics inside `to_bson` still propagate. -/
def distinctNthDoc (params : ParametersExpression) (n : Nat) :
    RResult (Option (List (String × Bson))) :=
  match getNthObject params n with
  | none => .ok none
  | some o =>
    match serializeObject o with
    | .ok (.document d) => .ok (some d)
    | .ok _ => .ok none
    | .error _ => .ok none
    | .panicked => .panicked
    | .diverged => .diverged

/-- The option-document processing of the distinct branch (connector.rs,
lines 203-221). -/
def distinctBuildOptions (optsValues : Option (List (String × Bson))) :
    RResult DistinctOptions :=
  match optsValues with
  | none => .ok {}
  | some value =>
    let o1 : DistinctOptions :=
      match docGetI64 value "maxTime" with
      | some v => { maxTime := some (((v : Int) % (2 : Int) ^ 64).toNat) }
      | none => {}
    (match docGetDocument value "collation" with
      | some c => (collationFromDoc c).map (fun r => some r)
      | none => RResult.ok none).bind fun coll =>
    (match docGetDocument value "selectionCriteria" with
      | some c => (selectionCriteriaFromDoc c).map (fun r => some r)
      | none => RResult.ok none).bind fun sel =>
    (match docGetDocument value "readConcern" with
      | some c => (readConcernFromDoc c).map (fun r => some r)
      | none => RResult.ok none).map fun rc =>
    { o1 with collation := coll, selectionCriteria := sel, readConcern := rc }

/-- The pipeline mapping of the aggregate branch: each element must be an
object literal whose serialization is a document. -/
def aggregatePipelines : List Identifier →
    RResult (List (List (String × Bson)))
  | [] => .ok []
  | p :: rest =>
    (match p with
      | .object o => RResult.ok o
      | _ => RResult.error "Failed to convert value to type ObjectExpression").bind fun o =>
    (serializeObject o).bind fun b =>
    (match b with
      | .document doc => RResult.ok doc
      | _ => RResult.error "Bson could not be converted to document").bind fun doc =>
    (aggregatePipelines rest).map (doc :: ·)

/-- `impl TryFrom<(String, ParametersExpression)> for Command`
(connector.rs, lines 82-234). -/
def Command.tryFrom (command : String) (params : ParametersExpression) :
    RResult Command :=
  let lc := rustToLowercase command
  if lc = "getindexes" then .ok .getIndexes
  else if lc = "find" then
    if params.params.length > 2 then
      .error "Find \x7b\x7d only accepts 2 parameters"
    else
      let filter := getNthObject params 0
      let projection := getNthObject params 1
      (toBsonOptionObject projection).bind fun pb =>
      let opts : FindOptions :=
        match pb with
        | .document doc => { projection := some doc }
        | _ => {}
      match filter with
      | some f =>
        if f.properties.isEmpty then .ok (.find { options := opts })
        else
          (toBsonOptionObject (some f)).bind fun fb =>
          match fb with
          | .document doc =>
            .ok (.find { options := opts, filter := some doc })
          | _ => .ok (.find { options := opts })
      | none => .ok (.find { options := opts })
  else if lc = "count" then
    let filter := getNthObject params 0
    match filter with
    | some f =>
      if f.properties.isEmpty then .ok (.count {})
      else
        (toBsonOptionObject (some f)).bind fun fb =>
        match fb with
        | .document doc => .ok (.count { filter := some doc })
        | _ => .ok (.count {})
    | none => .ok (.count {})
  else if lc = "aggregate" then
    if params.params.isEmpty then
      .error "Aggregate requires at least one parameter"
    else
      (match params.params.get? 0 with
        | some (.array a) => RResult.ok a.elements
        | some _ => RResult.error "Failed to convert value to type ArrayExpression"
        | none => RResult.panicked).bind fun arr =>
      if arr.isEmpty then
        .error "Aggregate requires at least one pipeline"
      else
        (aggregatePipelines arr).map fun pipelines =>
          .aggregate { pipelines := pipelines, options := {}, limit := none,
                       skip := none, explain := false }
  else if lc = "distinct" then
    if params.params.length > 3 then
      .error "Distinct \x7b\x7d only accepts 3 parameters"
    else if params.params.isEmpty then
      .error "Distinct \x7b\x7d requires at least one parameter"
    else
      (getNthLiteral params 0).bind fun lit =>
      (match lit with
        | .str s => RResult.ok s
        | _ => RResult.panicked).bind fun field =>
      (distinctNthDoc params 1).bind fun filter =>
      (distinctNthDoc params 2).bind fun optsValues =>
      (distinctBuildOptions optsValues).map fun opts =>
        .distinct { field := field, filter := filter, options := opts }
  else .error ("Command " ++ command ++ " not implemented")

/-- Rust `{:?}` of a `SubCommand` as used in error messages.  The payload of
`Sort`/`Hint` is rendered schematically; no claim relies on the payload
text. -/
def SubCommand.debugStr : SubCommand → String
  | .count => "Count"
  | .sort none => "Sort(None)"
  | .sort (some _) => "Sort(Some(Document))"
  | .allowDiskUse => "AllowDiskUse"
  | .explain => "Explain"
  | .hint none => "Hint(None)"
  | .hint (some _) => "Hint(Some(Hint))"
  | .skip none => "Skip(None)"
  | .skip (some n) => "Skip(Some(" ++ toString n ++ "))"
  | .limit none => "Limit(None)"
  | .limit (some n) => "Limit(Some(" ++ toString n ++ "))"

/-- `impl TryFrom<(String, ParametersExpression)> for SubCommand`
(connector.rs, lines 582-669). -/
def SubCommand.tryFrom (command : String) (params : ParametersExpression) :
    RResult SubCommand :=
  let lc := rustToLowercase command
  if lc = "count" then
    if params.params.isEmpty then .ok .count
    else .error "Count command doesn't accept any parameter"
  else if lc = "sort" then
    if params.params.length > 1 then
      .error "Sort command only accepts 1 parameter"
    else
      (getNthObjectR params 0).bind fun sortParams =>
      (serializeObject sortParams).bind fun b =>
      match b with
      | .document doc => .ok (.sort (some doc))
      | _ => .error "Bson could not be converted to document"
  else if lc = "allowdiskuse" then
    if ¬ params.params.isEmpty then
      .error "AllowDiskUse doesn't accept any parameter"
    else .ok .allowDiskUse
  else if lc = "explain" then .ok .explain
  else if lc = "skip" then
    if params.params.length > 1 then
      .error "Skip command only accepts 1 parameter"
    else
      (getNthLiteral params 0).bind fun lit =>
      (match lit with
        | .num n => RResult.ok n
        | _ => RResult.error "Failed to convert value to type Number").map fun n =>
      .skip (some (numberToU64 n))
  else if lc = "limit" then
    if params.params.length > 1 then
      .error "Limit command only accepts 1 parameter"
    else
      (getNthLiteral params 0).bind fun lit =>
      (match lit with
        | .num n => RResult.ok n
        | _ => RResult.error "Failed to convert value to type Number").map fun n =>
      .limit (some (numberToI64 n))
  else if lc = "hint" then
    if params.params.length > 1 then
      .error "Hint command only accepts 1 parameter"
    else
      (getNthIdentifier params 0).bind fun indexSpec =>
      (serializeIdentifier indexSpec).bind fun b =>
      match b with
      | .document doc => .ok (.hint (some (.keys doc)))
      | _ =>
        match indexSpec with
        | .literal (.str s) => .ok (.hint (some (.name s)))
        | _ => .error "Hint command only accepts object or string parameter"
  else .error "Unknown subcommand"

/-- `QueryBuilder::add_sub_query` for `FindQuery` (connector.rs, lines
312-339): always succeeds, and sets `batch_size = Some(50)` first. -/
def FindQuery.addSubQuery (f : FindQuery) (q : SubCommand) : FindQuery :=
  let f := { f with options.batchSize := some 50 }
  match q with
  | .count => { f with count := true }
  | .sort d => { f with options.sort := d }
  | .allowDiskUse => { f with options.allowDiskUse := some true }
  | .explain => { f with explain := true }
  | .hint h => { f with options.hint := h }
  | .skip n => { f with options.skip := n }
  | .limit n => { f with options.limit := n }

/-- `QueryBuilder::add_sub_query` for `CountQuery` (connector.rs, lines
433-443). -/
def CountQuery.addSubQuery (c : CountQuery) (q : SubCommand) :
    RResult CountQuery :=
  match q with
  | .allowDiskUse => .ok { c with options.allowDiskUse := some true }
  | _ => .error "Count only supports AllowDiskUse"

/-- `QueryBuilder::add_sub_query` for `AggregateQuery` (connector.rs, lines
467-494).  The `Count` arm is `todo!()` — a panic. -/
def AggregateQuery.addSubQuery (a : AggregateQuery) (q : SubCommand) :
    RResult AggregateQuery :=
  match q with
  | .count => .panicked
  | .allowDiskUse => .ok { a with options.allowDiskUse := some true }
  | .explain => .ok { a with explain := true }
  | .hint h => .ok { a with options.hint := h }
  | .skip n => .ok { a with skip := n }
  | .limit n => .ok { a with limit := n }
  | .sort d => .error ("Aggregate does not support " ++ SubCommand.debugStr (.sort d))

/-- `QueryBuilder::add_sub_query` for `Command` (connector.rs, lines
281-288).  The wildcard arm — reached for `Distinct` and `GetIndexes` —
calls `self.add_sub_query(query)` again, which re-enters the same wildcard
arm with unchanged arguments and never terminates; it is modelled as
`.diverged`.  (The intended behavior was presumably the trait's default
"QueryBuilder does not support" error, which is unreachable.) -/
def Command.addSubQuery : Command → SubCommand → RResult Command
  | .find f, q => .ok (.find (f.addSubQuery q))
  | .count c, q => (c.addSubQuery q).map Command.count
  | .aggregate a, q => (a.addSubQuery q).map Command.aggregate
  | .distinct _, _ => .diverged
  | .getIndexes, _ => .diverged

/-! ## `rusty_db_cli/src/connectors/mongodb/interpreter.rs` — flattening and
the db-call executor -/

mutual

/-- `InterpreterMongo::resolve_call_expression`.  The expression stack is a
list whose head is the top (a Rust `Vec` push is a cons here). -/
def resolveCallExpression : CallExpression → List Expression → List Expression
  | .primary (.mk params callee), st =>
    let st1 := Expression.parametersExpression params :: st
    match callee with
    | .identifier id => Expression.identifier id :: st1
    | .member m => resolveMemberExpression m st1
  | .recursive c params, st =>
    resolveCallExpression c (Expression.parametersExpression params :: st)
  | .member m, st => resolveMemberExpression m st

/-- `InterpreterMongo::resolve_member_expression`. -/
def resolveMemberExpression : MemberExpression → List Expression → List Expression
  | .primary (.mk object property), st =>
    Expression.identifier object :: (Expression.identifier property :: st)
  | .recursive m id, st =>
    resolveMemberExpression m (Expression.identifier id :: st)
  | .call c, st => resolveCallExpression c st

end

/-- `try_get_next_literal::<String>` applied to one popped expression:
`consume::<Identifier>` then `Literal::try_from` then `String::try_from`,
with the `try_from!` macro's error messages.  The `consume` failure message
is schematic (its `{:?}` payload is not modelled). -/
def expressionToLiteralString : Expression → RResult String
  | .identifier i =>
    match i with
    | .literal lit =>
      match lit with
      | .str s => .ok s
      | _ => .error "Failed to convert value to type String"
    | _ => .error "Failed to convert value to type Literal"
  | _ => .error "Failed to consume expression"

/-- `consume::<ParametersExpression>` applied to one popped expression. -/
def expressionToParams : Expression → RResult ParametersExpression
  | .parametersExpression p => .ok p
  | _ => .error "Failed to consume expression"

/-- The built query plan: what `execute_db_call` has assembled at the point
where it hands over to `main_command.build(collection, pagination)` — the
collection name and the fully-modified command.  The actual database round
trip is I/O outside this embedding. -/
structure Plan where
  collection : String
  command : Command

/-- The `while !self.expressions.is_empty()` modifier loop of
`execute_db_call`.  `consume` pops with `.unwrap()`, so a stack that runs
out mid-iteration is a panic. -/
def subQueryLoop : List Expression → Command → RResult Command
  | [], cmd => .ok cmd
  | e1 :: rest, cmd =>
    (expressionToLiteralString e1).bind fun name =>
    match rest with
    | [] => .panicked
    | e2 :: rest2 =>
      (expressionToParams e2).bind fun params =>
      (SubCommand.tryFrom name params).bind fun sub =>
      (Command.addSubQuery cmd sub).bind fun cmd2 =>
      subQueryLoop rest2 cmd2

/-- `InterpreterMongo::execute_db_call` (interpreter.rs, lines 82-147), up to
the point where the plan is handed to the driver.  Popping an empty stack is
a panic; a first segment that is a literal other than "db" falls through to
the trailing `Err("Failed to execute db call")`. -/
def executeDbCall : List Expression → RResult Plan
  | [] => .panicked
  | e1 :: rest =>
    (expressionToLiteralString e1).bind fun s =>
    if s = "db" then
      match rest with
      | [] => .panicked
      | e2 :: rest2 =>
        (expressionToLiteralString e2).bind fun collectionName =>
        match rest2 with
        | [] => .panicked
        | e3 :: rest3 =>
          (expressionToLiteralString e3).bind fun commandType =>
          match rest3 with
          | [] => .panicked
          | e4 :: rest4 =>
            (expressionToParams e4).bind fun params =>
            (Command.tryFrom commandType params).bind fun mainCommand =>
            (subQueryLoop rest4 mainCommand).map fun cmd =>
            Plan.mk collectionName cmd
    else .error "Failed to execute db call"

/-- `InterpreterMongo::execute_call_expression` (interpreter.rs, lines
164-176). -/
def executeCallExpression (call : CallExpression) : RResult Plan :=
  let st := resolveCallExpression call []
  if st.isEmpty then .error "Empty call expression"
  else executeDbCall st

/-! ## Claim theorems -/

theorem foldr_replaceEmpty (l : List Char) :
    l.foldr (fun ch acc => if ch = ';' then "".toList ++ acc else ch :: acc) [] =
      l.filter (fun c => c ≠ ';') := by
  induction l with
  | nil => rfl
  | cons c t ih =>
    rw [List.foldr_cons, ih]
    by_cases h : c = ';'
    · simp [h]
    · simp [h]

/-- Claim C4 (corrected by `numericWidening_counterexample`): integer literals
whose value lies strictly between `i32::MIN` and `i32::MAX` become
`Number::I32`; literals equal to the two boundary values, or overflowing
`i32` while fitting `i64`, become `Number::I64`; any literal containing `.`
becomes `Number::F64` (when Rust's `f64` syntax accepts it). -/
theorem numericWidening_amended (s : String) :
    (∀ v : Int, s.toList.contains '.' = false → rustParseIntCore s = some v →
      Number.fromStr s =
        (if i32Min < v ∧ v < i32Max then .ok (.i32 v)
         else if i64Min ≤ v ∧ v ≤ i64Max then .ok (.i64 v)
         else .error .intError)) ∧
    (s.toList.contains '.' = true →
      Number.fromStr s =
        (if f64SyntaxOk s then .ok (.f64 s) else .error .floatError)) := by
  constructor
  · intro v hdot hcore
    unfold Number.fromStr
    rw [hdot]
    simp only [Bool.false_eq_true, if_false]
    unfold rustParseI32 rustParseI64 rustParseInt
    rw [hcore]
    simp only [Option.some_bind]
    by_cases h32 : i32Min ≤ v ∧ v ≤ i32Max
    · rw [if_pos h32]
      by_cases hb : v = i32Max ∨ v = i32Min
      · have h64 : i64Min ≤ v ∧ v ≤ i64Max := by
          unfold i32Min i32Max at h32
          unfold i64Min i64Max
          omega
        have hno : ¬ (i32Min < v ∧ v < i32Max) := by
          unfold i32Min i32Max at hb ⊢
          omega
        rw [if_neg hno, if_pos h64]
        simp only [if_pos hb, if_pos h64]
      · have hyes : i32Min < v ∧ v < i32Max := by
          unfold i32Min i32Max at h32 hb ⊢
          omega
        rw [if_pos hyes]
        simp only [if_neg hb]
    · rw [if_neg h32]
      have hno : ¬ (i32Min < v ∧ v < i32Max) := by
        unfold i32Min i32Max at h32 ⊢
        omega
      rw [if_neg hno]
      by_cases h64 : i64Min ≤ v ∧ v ≤ i64Max
      · rw [if_pos h64, if_pos h64]
      · rw [if_neg h64, if_neg h64]
  · intro hdot
    unfold Number.fromStr
    rw [hdot]
    rfl

/-- Claim C4, as stated, is false on the `i32` boundary values: parsing
"2147483647" (`i32::MAX`) and "-2147483648" (`i32::MIN`) yields
`Number::I64`, not `Number::I32`, because `Number::from_str` re-parses both
boundary values as `i64`. -/
theorem numericWidening_counterexample :
    Number.fromStr "2147483647" = .ok (.i64 2147483647) ∧
    Number.fromStr "2147483647" ≠ .ok (.i32 2147483647) ∧
    Number.fromStr "-2147483648" = .ok (.i64 (-2147483648)) := by
  refine ⟨by decide, by decide, by decide⟩

/-- Witness for `numericWidening_amended` at the literals "5" and "1.5". -/
theorem numericWidening_witness :
    Number.fromStr "5" = .ok (.i32 5) ∧ Number.fromStr "1.5" = .ok (.f64 "1.5") := by
  constructor
  · have h := (numericWidening_amended "5").1 5 (by decide) (by decide)
    rw [h]
    decide
  · have h := (numericWidening_amended "1.5").2 (by decide)
    rw [h]
    decide

/-- Claim C8 (corrected by `relationalRewrite_counterexample`): the relational
`get_data` removes every semicolon from the SQL text (not only a trailing
one), appends " LIMIT <limit>;" with a trailing semicolon, executes that one
query on both the typed and the simple-text path, and zips the two result
sets row by row. -/
theorem relationalRewrite_amended {TRow SRow Obj : Type}
    (typedQuery : String → List TRow)
    (simpleQuery : String → List (SimpleQueryMessage SRow))
    (combine : TRow × SRow → Obj) (s : String) (p : PaginationInfo) :
    pgGetData typedQuery simpleQuery combine s p =
      ((typedQuery (pgRewriteQuery s p.limit)).zip
        (simpleQueryRows (simpleQuery (pgRewriteQuery s p.limit)))).map combine ∧
    pgRewriteQuery s p.limit =
      String.mk (s.toList.filter (fun c => c ≠ ';')) ++ " LIMIT " ++
        toString p.limit ++ ";" := by
  refine ⟨rfl, ?_⟩
  unfold pgRewriteQuery rustReplaceChar
  rw [foldr_replaceEmpty]

/-- Claim C8, as stated, is false on SQL with interior semicolons: the code
removes every `;` and keeps a trailing one on the appended LIMIT clause. -/
theorem relationalRewrite_counterexample :
    pgRewriteQuery "a;b" 100 = "ab LIMIT 100;" ∧
    specRewriteQuery "a;b" 100 = "a;b LIMIT 100" ∧
    pgRewriteQuery "a;b" 100 ≠ specRewriteQuery "a;b" 100 := by
  refine ⟨rfl, rfl, by decide⟩

/-- Claim C9 (corrected by `uriDispatch_counterexample`): the connector
dispatch agrees with the spec's rule exactly on URIs containing "mongodb";
every other URI panics instead of being routed to the relational connector.
-/
theorem uriDispatch_amended (uri : String) :
    getTableLayoutRoute uri = specRoute uri ↔ rustContains uri "mongodb" = true := by
  unfold getTableLayoutRoute specRoute
  by_cases h : rustContains uri "mongodb" <;> simp [h]

/-- Claim C9, as stated, is false for non-mongodb URIs: `get_table_layout`
panics with "Other connectors are not implemented" instead of building the
relational connector. -/
theorem uriDispatch_counterexample :
    getTableLayoutRoute "postgresql://localhost:5432/db" =
      .panicked "Other connectors are not implemented" ∧
    specRoute "postgresql://localhost:5432/db" = .relational ∧
    getTableLayoutRoute "postgresql://localhost:5432/db" ≠
      specRoute "postgresql://localhost:5432/db" := by
  refine ⟨rfl, rfl, by decide⟩


/-- The trace the scanner emits for the source "/a/": the regex token plus a
regex-flags token whose lexeme repeats the regex characters. -/
def regexFlagsTrace : List TraceItem :=
  [.tok { type := .regex, lexeme := ['/', 'a', '/'], literal := some (.str "a"),
          line := 0, rangeStart := 0, rangeEnd := 2 },
   .tok { type := .regexFlags, lexeme := ['/', 'a', '/'],
          literal := some (.str "/a/"), line := 0, rangeStart := 3, rangeEnd := 2 }]

/-- Claim C2, as stated, is false on the input "/a/" (no whitespace, no
errors, no panic): the concatenated lexemes are "/a//a/", not "/a/", because
`add_token` does not reset `current_string` between the regex token and the
regex-flags token. -/
theorem lexerReconstruction_counterexample :
    scanAll "/a/".toList = .ok (regexFlagsTrace, []) ∧
    ((traceTokens regexFlagsTrace).map Token.lexeme).flatten = "/a//a/".toList ∧
    "/a//a/".toList ≠ "/a/".toList := by
  refine ⟨rfl, rfl, by decide⟩

/-- Claim C2 (corrected by `lexerReconstruction_counterexample`): for every
ASCII source containing no '/' on which `scan_tokens` does not panic, the
token lexemes interleaved with the skipped whitespace characters, in scan
order, reconstruct the source byte for byte.  The ASCII restriction marks the
domain on which this embedding is exact (`peek_next` mixes byte and character
indices and can panic on non-ASCII sources); the '/' restriction is forced by
the counterexample; `scan_tokens` panics (never returning tokens) on integer
literals overflowing i64, via `Number::from_str(..).unwrap()`. -/
theorem lexerReconstruction_amended (source : List Char)
    (_hascii : ∀ c ∈ source, c.toNat < 128) (hns : '/' ∉ source)
    (tr : List TraceItem) (er : List LexerError)
    (h : scanAll source = .ok (tr, er)) :
    (tr.map TraceItem.render).flatten = source :=
  scanGo_reconstruct (source.length + 1) source 0 0 0 tr er hns h

/-- The trace the scanner emits for the source "a 1". -/
def witnessTrace : List TraceItem :=
  [.tok { type := .identifier, lexeme := ['a'], literal := some (.str "a"),
          line := 0, rangeStart := 0, rangeEnd := 0 },
   .ws 1 ' ',
   .tok { type := .number, lexeme := ['1'], literal := some (.num (.i32 1)),
          line := 0, rangeStart := 2, rangeEnd := 2 }]

/-- Witness for `lexerReconstruction_amended` at the source "a 1". -/
theorem lexerReconstruction_witness :
    (witnessTrace.map TraceItem.render).flatten = "a 1".toList :=
  lexerReconstruction_amended "a 1".toList (by decide) (by decide)
    witnessTrace [] rfl

/-- Claim C3: whenever `parse` succeeds with program `P`, `try_parse` returns
the same `P` and no error.  `Parser::try_parse` itself is absent from the
sources (only declared callers remain), so it is modelled from the spec as
partial-parse with fallback (`tryParseGo`); the success case proved here does
not depend on the fallback details. -/
theorem partialParse_monotone (tks : List Token) (p : Program)
    (h : Parser.parse tks = .ok p) :
    Interpreter.tryParse tks = .ok (p, none) := by
  unfold Interpreter.tryParse
  rw [tryParseGo.eq_def, h]

def tokIdent (s : String) (posn : Nat) : Token :=
  { type := .identifier, lexeme := s.toList, literal := some (.str s),
    line := 0, rangeStart := posn, rangeEnd := posn + s.length - 1 }

def tokPunct (t : TokenType) (c : Char) (posn : Nat) : Token :=
  { type := t, lexeme := [c], literal := none, line := 0,
    rangeStart := posn, rangeEnd := posn }

/-- The token sequence of the source "db.a.find()". -/
def witnessTokens : List Token :=
  [tokIdent "db" 0, tokPunct .dot '.' 2, tokIdent "a" 3, tokPunct .dot '.' 4,
   tokIdent "find" 5, tokPunct .leftParen '(' 9, tokPunct .rightParen ')' 10]

/-- The program `parse` produces for "db.a.find()". -/
def witnessProgram : Program :=
  .mk [Expression.expressionStatement ⟨CallExpression.primary
    (.mk (.mk []) (.member (.recursive
      (.primary (.mk (.literal (.str "db")) (.literal (.str "a"))))
      (.literal (.str "find")))))⟩]

/-- Witness for `partialParse_monotone` at the tokens of "db.a.find()". -/
theorem partialParse_monotone_witness :
    Interpreter.tryParse witnessTokens = .ok (witnessProgram, none) :=
  partialParse_monotone witnessTokens witnessProgram (by with_unfolding_all rfl)


/-- Claim C7: with the paging cursor on the last row of the 100-row page
(widget state `verticalOffset = 90`, `verticalSelect = 10`, component
`verticalOffset` at its maximum 100), a down movement adds exactly
99 = PAGE - 1 to `pagination.start` (the u64 addition does not wrap under
the stated bound), resets the cursor to row 1 (component `verticalOffset`
1, widget vertical offset 0 and selection 1, horizontal offset re-derived
from the component field), and emits exactly one `OnQuery` event carrying
the unchanged query text and the updated pagination window. -/
theorem pageDown_boundary (c : TableComponent)
    (h1 : c.state.verticalOffset = 90) (h2 : c.state.verticalSelect = 10)
    (h3 : c.verticalOffset = 100) (h4 : c.verticalOffsetMax = 100)
    (h5 : c.pagination.start + 99 < 2 ^ 64) :
    handleNextVerticalMovement c .down =
      ({ c with verticalOffset := 1,
                pagination := { start := c.pagination.start + 99,
                                limit := c.pagination.limit },
                state := { horizontalOffset := c.horizontalOffset.toNat,
                           verticalOffset := 0, verticalSelect := 1 } },
       [TableEvent.onQuery { query := c.query,
                             pagination := { start := c.pagination.start + 99,
                                             limit := c.pagination.limit } }]) := by
  obtain ⟨⟨sh, sv, ss⟩, q, ho, vo, vom, ⟨ps, pl⟩⟩ := c
  simp only [] at h1 h2 h3 h4 h5
  subst h1 h2 h3 h4
  simp only [handleNextVerticalMovement, ScrollableTableState.reset, LIMIT]
  norm_num [show Int.toNat 90 = 90 from rfl, Nat.mod_eq_of_lt h5]
  omega

/-- Witness for `pageDown_boundary` on a concrete component. -/
theorem pageDown_boundary_witness :
    handleNextVerticalMovement
      { state := { horizontalOffset := 3, verticalOffset := 90, verticalSelect := 10 },
        query := "db.users.find()", horizontalOffset := 3, verticalOffset := 100,
        verticalOffsetMax := 100, pagination := { start := 99, limit := 100 } } .down =
      ({ state := { horizontalOffset := 3, verticalOffset := 0, verticalSelect := 1 },
         query := "db.users.find()", horizontalOffset := 3, verticalOffset := 1,
         verticalOffsetMax := 100, pagination := { start := 198, limit := 100 } },
       [TableEvent.onQuery { query := "db.users.find()",
                             pagination := { start := 198, limit := 100 } }]) :=
  pageDown_boundary
    { state := { horizontalOffset := 3, verticalOffset := 90, verticalSelect := 10 },
      query := "db.users.find()", horizontalOffset := 3, verticalOffset := 100,
      verticalOffsetMax := 100, pagination := { start := 99, limit := 100 } }
    rfl rfl rfl rfl (by norm_num)


/-- Claim C5, as stated, is false: chaining the invalid modifier `sort` onto
a built `count` command yields the fixed message "Count only supports
AllowDiskUse", not the claimed "<Command> does not support <Modifier>"
format (which would read "Count does not support Sort(None)" here). -/
theorem modifierRejection_counterexample :
    Command.addSubQuery (.count {}) (.sort none) =
      .error "Count only supports AllowDiskUse" ∧
    Command.addSubQuery (.count {}) (.sort none) ≠
      .error "Count does not support Sort(None)" := by
  refine ⟨rfl, fun h => ?_⟩
  rw [show Command.addSubQuery (.count {}) (.sort none) =
        RResult.error "Count only supports AllowDiskUse" from rfl] at h
  injection h with h2
  exact absurd h2 (by decide)

/-- Claim C5 (corrected by `modifierRejection_counterexample`): the actual
per-variant behavior of `add_sub_query` on chained modifiers.  `count`
rejects every modifier other than `allowDiskUse` with the fixed message
"Count only supports AllowDiskUse" and accepts `allowDiskUse`; `aggregate`
rejects `sort` with the claimed "<Command> does not support <Modifier>"
format, panics (`todo!()`) on `count`, and accepts every other modifier;
`find` accepts every modifier; `distinct` and `getIndexes` hit the wildcard
arm of `Command::add_sub_query`, which re-invokes itself with unchanged
arguments and never terminates, so no error is ever produced. -/
theorem modifierRejection_amended :
    (∀ c q, q ≠ SubCommand.allowDiskUse →
      Command.addSubQuery (.count c) q =
        .error "Count only supports AllowDiskUse") ∧
    (∀ c, Command.addSubQuery (.count c) .allowDiskUse =
      .ok (.count { c with options.allowDiskUse := some true })) ∧
    (∀ a d, Command.addSubQuery (.aggregate a) (.sort d) =
      .error ("Aggregate does not support " ++ SubCommand.debugStr (.sort d))) ∧
    (∀ a, Command.addSubQuery (.aggregate a) .count = .panicked) ∧
    (∀ dq q, Command.addSubQuery (.distinct dq) q = .diverged) ∧
    (∀ q, Command.addSubQuery .getIndexes q = .diverged) ∧
    (∀ f q, Command.addSubQuery (.find f) q = .ok (.find (f.addSubQuery q))) := by
  refine ⟨?_, fun c => rfl, fun a d => rfl, fun a => rfl,
    fun dq q => rfl, fun q => rfl, fun f q => rfl⟩
  intro c q hq
  cases q with
  | count => rfl
  | sort d => rfl
  | allowDiskUse => exact absurd rfl hq
  | explain => rfl
  | hint h => rfl
  | skip n => rfl
  | limit n => rfl

/-- Witness for `modifierRejection_amended`: the `count`/`sort` instance. -/
theorem modifierRejection_witness :
    Command.addSubQuery (.count {}) (.sort none) =
      .error "Count only supports AllowDiskUse" :=
  modifierRejection_amended.1 {} (.sort none) (fun h => SubCommand.noConfusion h)

/-- Claim C6: serializing `ObjectId("0123456789abcdef01234567")` does yield
the twelve decoded bytes, but serializing `ObjectId("nothex")` panics — the
`ObjectId::from_str(&value).unwrap()` in `CallExpression::serialize` crashes
on every string that is not 24 hex characters instead of surfacing an error
value to the caller.  The error-surfacing half of the claim fails because of
this crash, a bug in the code. -/
theorem objectIdSerialization_behavior :
    serializeCall (.primary (.mk (.mk [.literal (.str "0123456789abcdef01234567")])
        (.identifier (.literal (.str "ObjectId"))))) =
      .ok (.objectId [1, 35, 69, 103, 137, 171, 205, 239, 1, 35, 69, 103]) ∧
    serializeCall (.primary (.mk (.mk [.literal (.str "nothex")])
        (.identifier (.literal (.str "ObjectId"))))) = .panicked :=
  ⟨rfl, rfl⟩


theorem rresultBind_ok {A B : Type} (x : RResult A) (f : A → RResult B)
    (b : B) (h : x.bind f = .ok b) : ∃ a, x = .ok a ∧ f a = .ok b := by
  cases x with
  | ok a => exact ⟨a, rfl, h⟩
  | error m => exact RResult.noConfusion h
  | panicked => exact RResult.noConfusion h
  | diverged => exact RResult.noConfusion h

theorem rresultMap_ok {A B : Type} (f : A → B) (x : RResult A)
    (b : B) (h : x.map f = .ok b) : ∃ a, x = .ok a ∧ f a = b := by
  cases x with
  | ok a => exact ⟨a, rfl, RResult.ok.inj h⟩
  | error m => exact RResult.noConfusion h
  | panicked => exact RResult.noConfusion h
  | diverged => exact RResult.noConfusion h

/-- The five command names `Command::try_from` recognizes (after ASCII
lowercasing). -/
def recognizedCommands : List String :=
  ["getindexes", "find", "count", "aggregate", "distinct"]

/-- A first parameter that is an object literal with a non-string key:
`{ 1: 2 }`. -/
def cexFindParams : ParametersExpression :=
  .mk [.object (.mk [.mk (.literal (.num (.i32 1))) (.literal (.num (.i32 2)))])]

/-- Claim C10, as stated, is false: with a single parameter (at most two),
the find branch does reject on type grounds — serializing the non-empty
object literal `{ 1: 2 }` fails on its non-string key, and that error is
returned even though no more than two parameters were supplied. -/
theorem findLeniency_counterexample :
    Command.tryFrom "find" cexFindParams = .error "InvalidDocumentKey" ∧
    cexFindParams.params.length ≤ 2 := by
  exact ⟨by with_unfolding_all rfl, by decide⟩

/-- Claim C10 (corrected by `findLeniency_counterexample`): more than two
parameters yield the arity error; a first parameter that is not an object
literal (or is an empty object literal) is silently treated as an absent
filter and a second parameter that is not an object literal as an absent
projection, giving the default find plan; but when a parameter is a
non-empty object literal, its serialization can still fail (for example on a
non-string key) and that error is returned even with at most two
parameters. -/
theorem findLeniency_amended :
    (∀ params : ParametersExpression, params.params.length > 2 →
      Command.tryFrom "find" params =
        .error "Find {} only accepts 2 parameters") ∧
    (∀ params : ParametersExpression, ¬ params.params.length > 2 →
      getNthObject params 0 = none → getNthObject params 1 = none →
      Command.tryFrom "find" params = .ok (.find {})) ∧
    (∀ (params : ParametersExpression) (f : ObjectExpression),
      ¬ params.params.length > 2 →
      getNthObject params 0 = some f → f.properties.isEmpty = true →
      getNthObject params 1 = none →
      Command.tryFrom "find" params = .ok (.find {})) := by
  refine ⟨?_, ?_, ?_⟩
  · intro params hlen
    simp only [Command.tryFrom]
    rw [show rustToLowercase "find" = "find" from rfl]
    rw [if_neg (by decide : ¬ ("find" : String) = "getindexes")]
    rw [if_pos rfl, if_pos hlen]
  · intro params hlen h0 h1
    simp only [Command.tryFrom]
    rw [show rustToLowercase "find" = "find" from rfl]
    rw [if_neg (by decide : ¬ ("find" : String) = "getindexes")]
    rw [if_pos rfl, if_neg hlen, h0, h1]
    rfl
  · intro params f hlen h0 hempty h1
    simp only [Command.tryFrom]
    rw [show rustToLowercase "find" = "find" from rfl]
    rw [if_neg (by decide : ¬ ("find" : String) = "getindexes")]
    rw [if_pos rfl, if_neg hlen, h0, h1]
    simp only [toBsonOptionObject, RResult.bind, hempty]
    rfl

/-- Witness for `findLeniency_amended`: a single non-object parameter is
ignored and the default find plan is built. -/
theorem findLeniency_witness :
    Command.tryFrom "find" (.mk [.literal (.str "x")]) = .ok (.find {}) :=
  findLeniency_amended.2.1 (.mk [.literal (.str "x")]) (by decide) rfl rfl

/-- Claim C1: plan-builder soundness.  (1) A flattened call chain whose
first segment is a literal other than "db" fails with "Failed to execute db
call".  (2) Whenever `execute_db_call` succeeds, the stack starts with four
segments: the literal "db", a literal taken as the plan's collection name,
a literal command name that lowercases to one of the five recognized
commands, and the command's parameters.  (3) A command name outside the
five is rejected with the `InterpreterError` "Command <name> not
implemented". -/
theorem planBuilder_soundness :
    (∀ (e1 : Expression) (rest : List Expression) (s : String),
      expressionToLiteralString e1 = .ok s → s ≠ "db" →
      executeDbCall (e1 :: rest) = .error "Failed to execute db call") ∧
    (∀ (st : List Expression) (p : Plan), executeDbCall st = .ok p →
      ∃ e1 e2 e3 e4 rest name,
        st = e1 :: e2 :: e3 :: e4 :: rest ∧
        expressionToLiteralString e1 = .ok "db" ∧
        expressionToLiteralString e2 = .ok p.collection ∧
        expressionToLiteralString e3 = .ok name ∧
        rustToLowercase name ∈ recognizedCommands) ∧
    (∀ (name : String) (params : ParametersExpression),
      rustToLowercase name ∉ recognizedCommands →
      Command.tryFrom name params =
        .error ("Command " ++ name ++ " not implemented")) := by
  have hC : ∀ (name : String) (params : ParametersExpression),
      rustToLowercase name ∉ recognizedCommands →
      Command.tryFrom name params =
        .error ("Command " ++ name ++ " not implemented") := by
    intro name params hnotin
    simp only [recognizedCommands, List.mem_cons, List.not_mem_nil, or_false,
      not_or] at hnotin
    obtain ⟨n1, n2, n3, n4, n5⟩ := hnotin
    simp only [Command.tryFrom]
    rw [if_neg n1, if_neg n2, if_neg n3, if_neg n4, if_neg n5]
  refine ⟨?_, ?_, hC⟩
  · intro e1 rest s hs hne
    simp only [executeDbCall, hs, RResult.bind]
    rw [if_neg hne]
  · intro st p h
    match st with
    | [] => exact RResult.noConfusion h
    | e1 :: rest =>
      simp only [executeDbCall] at h
      obtain ⟨s, hs, h⟩ := rresultBind_ok _ _ _ h
      by_cases hdb : s = "db"
      · subst hdb
        rw [if_pos rfl] at h
        match rest with
        | [] => exact RResult.noConfusion h
        | e2 :: rest2 =>
          obtain ⟨coll, hcoll, h⟩ := rresultBind_ok _ _ _ h
          match rest2 with
          | [] => exact RResult.noConfusion h
          | e3 :: rest3 =>
            obtain ⟨name, hname, h⟩ := rresultBind_ok _ _ _ h
            match rest3 with
            | [] => exact RResult.noConfusion h
            | e4 :: rest4 =>
              obtain ⟨params, hparams, h⟩ := rresultBind_ok _ _ _ h
              obtain ⟨mainCmd, hmain, h⟩ := rresultBind_ok _ _ _ h
              obtain ⟨cmd, hloop, hplan⟩ := rresultMap_ok _ _ _ h
              refine ⟨e1, e2, e3, e4, rest4, name, rfl, hs, ?_, hname, ?_⟩
              · rw [← hplan]
                exact hcoll
              · by_cases hm : rustToLowercase name ∈ recognizedCommands
                · exact hm
                · rw [hC name params hm] at hmain
                  exact RResult.noConfusion hmain
      · rw [if_neg hdb] at h
        exact RResult.noConfusion h

/-- Witness for `planBuilder_soundness`: the non-"db" first segment "dc"
fails with the db-call error, and the unrecognized command name "update" is
rejected with "Command update not implemented". -/
theorem planBuilder_witness :
    executeDbCall [Expression.identifier (.literal (.str "dc"))] =
      .error "Failed to execute db call" ∧
    Command.tryFrom "update" (.mk []) =
      .error "Command update not implemented" :=
  ⟨planBuilder_soundness.1 _ [] "dc" rfl (by decide),
   planBuilder_soundness.2.2 "update" (.mk []) (by decide)⟩

end RdbCli
